import Mathlib

/-!
# logjam: request validation, decoding and dispatch

A shallow embedding of `cmd/logjam/main.go` and `cmd/logjam/handlers.go`.

Go strings and byte slices are sequences of bytes; they are embedded as lists of
natural numbers (`Bytes`), a byte literal `'c'` of the Go source being written
`'c'.toNat`.  The library functions the program calls (`strings.Split`, the
`stringset` package, `header.ParseValueAndParams`, `http.MaxBytesReader`,
`encoding/json`, `net/url`) are embedded next to the function that uses them, each
under the name it has in Go.

A request body is the sequence of bytes its reader delivers together with the error that
ends it.  A handler returns its result together with the goroutines it started.  The
text of a message is kept as the `fmt.Sprintf` call that builds it.
-/

set_option autoImplicit false
set_option maxRecDepth 100000

namespace Logjam

/-! ## Strings -/

/-- A Go `string` or `[]byte`: a sequence of bytes. -/
abbrev Bytes := List Nat

/-- The bytes of an ASCII string literal of the source. -/
def ascii (s : String) : Bytes := s.toList.map Char.toNat

/-- Go `strings.IndexByte(s, c)`: the index of the first `c` in `s`, if any. -/
def stringsIndexByte : Bytes → Nat → Option Nat
  | [], _ => none
  | b :: bs, c => if b = c then some 0 else (stringsIndexByte bs c).map (· + 1)

/-- Go `strings.Count(s, sep)` for a one-byte separator. -/
def stringsCount : Bytes → Nat → Nat
  | [], _ => 0
  | b :: bs, c => (if b = c then 1 else 0) + stringsCount bs c

/-- The loop of Go `strings.genSplit`: at most `n` times, cut `s` at the first
separator; what is left is the last piece. -/
def genSplitLoop (sep : Nat) : Nat → Bytes → List Bytes
  | 0, s => [s]
  | n + 1, s =>
    match stringsIndexByte s sep with
    | none => [s]
    | some m => s.take m :: genSplitLoop sep n (s.drop (m + 1))

/-- Go `strings.Split(s, sep)` for a one-byte separator: `genSplit(s, sep, 0, -1)`,
which sets `n = Count(s, sep) + 1` and runs the loop `n - 1` times. -/
def stringsSplit (s : Bytes) (sep : Nat) : List Bytes :=
  genSplitLoop sep (stringsCount s sep) s

/-- Go `strings.Join(elems, sep)` for a one-byte separator. -/
def stringsJoin : List Bytes → Nat → Bytes
  | [], _ => []
  | [p], _ => p
  | p :: q :: ps, sep => p ++ sep :: stringsJoin (q :: ps) sep

/-- Go `strings.HasPrefix(s, prefix)`. -/
def stringsHasPrefix (s pre : Bytes) : Bool := pre.isPrefixOf s

/-- Go `strings.TrimPrefix(s, prefix)`. -/
def stringsTrimPrefix (s pre : Bytes) : Bytes :=
  if stringsHasPrefix s pre then s.drop pre.length else s

/-! ## Errors -/

/-- A Go `error` value as the program can tell them apart.  Of `*json.SyntaxError`
and `*json.UnmarshalTypeError` only the fields the program reads are kept; the error
`encoding/json` builds with `fmt.Errorf("json: unknown field %q", key)` keeps its key;
every other error is known by its `Error()` text. -/
inductive GoError where
  /-- A `*json.SyntaxError` with its `Offset`. -/
  | syntaxError (offset : Nat)
  /-- The value `io.ErrUnexpectedEOF`. -/
  | errUnexpectedEOF
  /-- A `*json.UnmarshalTypeError` with its `Field` and `Offset`. -/
  | unmarshalTypeError (field : Bytes) (offset : Nat)
  /-- The error `fmt.Errorf("json: unknown field %q", key)`. -/
  | unknownField (key : Bytes)
  /-- The value `io.EOF`. -/
  | errEOF
  /-- Any other error, with its `Error()` text. -/
  | errorString (msg : Bytes)
  deriving DecidableEq, Repr

/-! ## The token set (`main.go`) -/

/-- The `stringset.StringSet` of `github.com/kentquirk/stringset/v2`: a Go map from
string to the empty struct, kept as the list of its keys. -/
structure StringSet where
  data : List Bytes
  deriving DecidableEq, Repr

/-- The Go `stringset.New()`. -/
def StringSet.New : StringSet := ⟨[]⟩

/-- The Go `(*StringSet).Contains`: whether the key is in the map. -/
def StringSet.Contains (s : StringSet) (str : Bytes) : Bool := decide (str ∈ s.data)

/-- One `s.data[str] = struct{}{}`. -/
def StringSet.add1 (s : StringSet) (str : Bytes) : StringSet :=
  if str ∈ s.data then s else ⟨s.data ++ [str]⟩

/-- The Go `(*StringSet).Add(strs ...string)`: sets every one of `strs` in turn. -/
def StringSet.Add (s : StringSet) (strs : List Bytes) : StringSet :=
  strs.foldl StringSet.add1 s

/-- Go `os.Getenv`: the value of the variable, or the empty string when it is not
set.  The environment is the optional value of `LOGJAM_TOKENS`. -/
def osGetenv (env : Option Bytes) : Bytes := env.getD []

/-- The first two lines of `main`: the global `validTokens` it builds from the value of
the environment variable `LOGJAM_TOKENS`. -/
def mainValidTokens (env : Option Bytes) : StringSet :=
  let tokens := stringsSplit (osGetenv env) ','.toNat
  StringSet.New.Add tokens

/-- The function `tokenValidator` of `main.go`, the global `validTokens` being passed
explicitly (the `echo.Context` is not used). -/
def tokenValidator (validTokens : StringSet) (tok : Bytes) : Bool × Option GoError :=
  (validTokens.Contains tok, none)

/-! ## The request -/

/-- The body of a request, an `io.ReadCloser`: the bytes its `Read` delivers and the
error it returns once they are exhausted, `io.EOF` at the regular end of a body. -/
structure Body where
  data : Bytes
  fin : GoError := GoError.errEOF
  deriving DecidableEq, Repr

/-- What the handlers read of an `*http.Request`: the value `Header.Get` returns for
`Content-Type` (the empty string when the header is not set), the raw query of the URL
and the body. -/
structure Request where
  contentType : Bytes
  rawQuery : Bytes
  body : Body
  deriving DecidableEq, Repr

/-! ## `header.ParseValueAndParams` (github.com/golang/gddo/httputil/header) -/

/-- The separators of RFC 2616, the string of `header.init`. -/
def isSeparator (c : Nat) : Bool := decide (c ∈ ascii " \t\"(),/:;<=>?@[]\\\x7b\x7d")

/-- The bit `isToken` of the table `octetTypes` that `header.init` fills: a US-ASCII
character that is neither a control character nor a separator. -/
def isToken (c : Nat) : Bool :=
  let isCtl := decide (c ≤ 31) || c == 127
  let isChar := decide (c ≤ 127)
  isChar && !isCtl && !isSeparator c

/-- The function `expectTokenSlash` of the header package: the longest prefix of token
bytes and slashes, and the rest. -/
def expectTokenSlash (s : Bytes) : Bytes × Bytes :=
  (s.takeWhile (fun b => isToken b || b == '/'.toNat),
   s.dropWhile (fun b => isToken b || b == '/'.toNat))

/-- Go `strings.ToLower` on ASCII bytes. -/
def stringsToLower (s : Bytes) : Bytes :=
  s.map (fun b => if 'A'.toNat ≤ b ∧ b ≤ 'Z'.toNat then b + ('a'.toNat - 'A'.toNat) else b)

/-- The first result, `value`, of `header.ParseValueAndParams(h, key)`, as a function of
`s = h.Get(key)`: the leading token of the header, lower-cased.  The parameters that
follow it make the second result, which the program discards. -/
def headerParseValueAndParams (s : Bytes) : Bytes :=
  let value := (expectTokenSlash s).1
  if value = [] then value else stringsToLower value

/-! ## `http.MaxBytesReader` -/

/-- Go `http.MaxBytesReader(w, r, n)`: a reader that delivers at most `n` bytes of `r`
and fails with the error "http: request body too large" when `r` holds more. -/
def httpMaxBytesReader (r : Body) (n : Nat) : Body :=
  if r.data.length ≤ n then r
  else { data := r.data.take n, fin := GoError.errorString (ascii "http: request body too large") }

/-! ## The scanner of `encoding/json` (scanner.go) -/

/-- The values a state function of the scanner returns. -/
inductive ScanOp where
  | scanContinue | scanBeginLiteral | scanBeginObject | scanObjectKey | scanObjectValue
  | scanEndObject | scanBeginArray | scanArrayValue | scanEndArray | scanSkipSpace
  | scanEnd | scanError
  deriving DecidableEq, Repr

/-- The entries of the scanner's parse stack. -/
inductive ParseState where
  | parseObjectKey | parseObjectValue | parseArrayValue
  deriving DecidableEq, Repr

/-- The state functions of the scanner, the values of its field `step`. -/
inductive Step where
  | stateBeginValueOrEmpty | stateBeginValue | stateBeginStringOrEmpty | stateBeginString
  | stateEndValue | stateEndTop
  | stateInString | stateInStringEsc | stateInStringEscU | stateInStringEscU1
  | stateInStringEscU12 | stateInStringEscU123
  | stateNeg | state1 | state0 | stateDot | stateDot0 | stateE | stateESign | stateE0
  | stateT | stateTr | stateTru | stateF | stateFa | stateFal | stateFals
  | stateN | stateNu | stateNul | stateError
  deriving DecidableEq, Repr

/-- The JSON scanner.  The parse stack has its top at the head of the list. -/
structure Scanner where
  step : Step := Step.stateBeginValue
  endTop : Bool := false
  parseState : List ParseState := []
  err : Option GoError := none
  bytes : Nat := 0
  deriving DecidableEq, Repr

def maxNestingDepth : Nat := 10000

/-- The method `reset` of the scanner. -/
def Scanner.reset (s : Scanner) : Scanner :=
  { s with step := Step.stateBeginValue, parseState := [], err := none, endTop := false }

/-- The method `error` of the scanner: records a syntax error at the current byte count
(the text of the message is not kept). -/
def Scanner.error (s : Scanner) : ScanOp × Scanner :=
  (ScanOp.scanError, { s with step := Step.stateError, err := some (GoError.syntaxError s.bytes) })

/-- The method `pushParseState` of the scanner. -/
def Scanner.pushParseState (s : Scanner) (newParseState : ParseState) (successState : ScanOp) :
    ScanOp × Scanner :=
  let s := { s with parseState := newParseState :: s.parseState }
  if s.parseState.length ≤ maxNestingDepth then (successState, s) else s.error

/-- The method `popParseState` of the scanner. -/
def Scanner.popParseState (s : Scanner) : Scanner :=
  let ps := s.parseState.tail
  if ps.length = 0 then { s with parseState := ps, step := Step.stateEndTop, endTop := true }
  else { s with parseState := ps, step := Step.stateEndValue }

/-- The function `isSpace` of the scanner. -/
def isSpace (c : Nat) : Bool :=
  decide (c ≤ ' '.toNat) && (c == ' '.toNat || c == '\t'.toNat || c == '\r'.toNat || c == '\n'.toNat)

def isDigit (c : Nat) : Bool := decide ('0'.toNat ≤ c) && decide (c ≤ '9'.toNat)

def isDigit19 (c : Nat) : Bool := decide ('1'.toNat ≤ c) && decide (c ≤ '9'.toNat)

def isHexDigit (c : Nat) : Bool :=
  isDigit c || (decide ('a'.toNat ≤ c) && decide (c ≤ 'f'.toNat))
    || (decide ('A'.toNat ≤ c) && decide (c ≤ 'F'.toNat))

def stateEndTop (s : Scanner) (c : Nat) : ScanOp × Scanner :=
  if !isSpace c then (ScanOp.scanEnd, s.error.2) else (ScanOp.scanEnd, s)

def stateEndValue (s : Scanner) (c : Nat) : ScanOp × Scanner :=
  match s.parseState with
  | [] => stateEndTop { s with step := Step.stateEndTop, endTop := true } c
  | ps :: rest =>
    if isSpace c then (ScanOp.scanSkipSpace, { s with step := Step.stateEndValue })
    else
      match ps with
      | ParseState.parseObjectKey =>
        if c = ':'.toNat then
          (ScanOp.scanObjectKey,
            { s with parseState := ParseState.parseObjectValue :: rest, step := Step.stateBeginValue })
        else s.error
      | ParseState.parseObjectValue =>
        if c = ','.toNat then
          (ScanOp.scanObjectValue,
            { s with parseState := ParseState.parseObjectKey :: rest, step := Step.stateBeginString })
        else if c = '}'.toNat then (ScanOp.scanEndObject, s.popParseState)
        else s.error
      | ParseState.parseArrayValue =>
        if c = ','.toNat then (ScanOp.scanArrayValue, { s with step := Step.stateBeginValue })
        else if c = ']'.toNat then (ScanOp.scanEndArray, s.popParseState)
        else s.error

def stateBeginValue (s : Scanner) (c : Nat) : ScanOp × Scanner :=
  if isSpace c then (ScanOp.scanSkipSpace, s)
  else if c = '\x7b'.toNat then
    { s with step := Step.stateBeginStringOrEmpty }.pushParseState ParseState.parseObjectKey
      ScanOp.scanBeginObject
  else if c = '['.toNat then
    { s with step := Step.stateBeginValueOrEmpty }.pushParseState ParseState.parseArrayValue
      ScanOp.scanBeginArray
  else if c = '"'.toNat then (ScanOp.scanBeginLiteral, { s with step := Step.stateInString })
  else if c = '-'.toNat then (ScanOp.scanBeginLiteral, { s with step := Step.stateNeg })
  else if c = '0'.toNat then (ScanOp.scanBeginLiteral, { s with step := Step.state0 })
  else if c = 't'.toNat then (ScanOp.scanBeginLiteral, { s with step := Step.stateT })
  else if c = 'f'.toNat then (ScanOp.scanBeginLiteral, { s with step := Step.stateF })
  else if c = 'n'.toNat then (ScanOp.scanBeginLiteral, { s with step := Step.stateN })
  else if isDigit19 c then (ScanOp.scanBeginLiteral, { s with step := Step.state1 })
  else s.error

def stateBeginValueOrEmpty (s : Scanner) (c : Nat) : ScanOp × Scanner :=
  if isSpace c then (ScanOp.scanSkipSpace, s)
  else if c = ']'.toNat then stateEndValue s c
  else stateBeginValue s c

def stateBeginString (s : Scanner) (c : Nat) : ScanOp × Scanner :=
  if isSpace c then (ScanOp.scanSkipSpace, s)
  else if c = '"'.toNat then (ScanOp.scanBeginLiteral, { s with step := Step.stateInString })
  else s.error

def stateBeginStringOrEmpty (s : Scanner) (c : Nat) : ScanOp × Scanner :=
  if isSpace c then (ScanOp.scanSkipSpace, s)
  else if c = '\x7d'.toNat then
    stateEndValue { s with parseState := ParseState.parseObjectValue :: s.parseState.tail } c
  else stateBeginString s c

def stateInString (s : Scanner) (c : Nat) : ScanOp × Scanner :=
  if c = '"'.toNat then (ScanOp.scanContinue, { s with step := Step.stateEndValue })
  else if c = '\\'.toNat then (ScanOp.scanContinue, { s with step := Step.stateInStringEsc })
  else if c < 0x20 then s.error
  else (ScanOp.scanContinue, s)

def stateInStringEsc (s : Scanner) (c : Nat) : ScanOp × Scanner :=
  if c = 'b'.toNat ∨ c = 'f'.toNat ∨ c = 'n'.toNat ∨ c = 'r'.toNat ∨ c = 't'.toNat
      ∨ c = '\\'.toNat ∨ c = '/'.toNat ∨ c = '"'.toNat then
    (ScanOp.scanContinue, { s with step := Step.stateInString })
  else if c = 'u'.toNat then (ScanOp.scanContinue, { s with step := Step.stateInStringEscU })
  else s.error

/-- The four states `stateInStringEscU` to `stateInStringEscU123`: a hexadecimal digit
leads to the state `next`. -/
def stateHex (next : Step) (s : Scanner) (c : Nat) : ScanOp × Scanner :=
  if isHexDigit c then (ScanOp.scanContinue, { s with step := next }) else s.error

/-- The states inside the literals `true`, `false` and `null`: the byte `want` leads to
the state `next`. -/
def stateLetter (want : Char) (next : Step) (s : Scanner) (c : Nat) : ScanOp × Scanner :=
  if c = want.toNat then (ScanOp.scanContinue, { s with step := next }) else s.error

def stateNeg (s : Scanner) (c : Nat) : ScanOp × Scanner :=
  if c = '0'.toNat then (ScanOp.scanContinue, { s with step := Step.state0 })
  else if isDigit19 c then (ScanOp.scanContinue, { s with step := Step.state1 })
  else s.error

def state0 (s : Scanner) (c : Nat) : ScanOp × Scanner :=
  if c = '.'.toNat then (ScanOp.scanContinue, { s with step := Step.stateDot })
  else if c = 'e'.toNat ∨ c = 'E'.toNat then (ScanOp.scanContinue, { s with step := Step.stateE })
  else stateEndValue s c

def state1 (s : Scanner) (c : Nat) : ScanOp × Scanner :=
  if isDigit c then (ScanOp.scanContinue, { s with step := Step.state1 }) else state0 s c

def stateDot (s : Scanner) (c : Nat) : ScanOp × Scanner :=
  if isDigit c then (ScanOp.scanContinue, { s with step := Step.stateDot0 }) else s.error

def stateDot0 (s : Scanner) (c : Nat) : ScanOp × Scanner :=
  if isDigit c then (ScanOp.scanContinue, s)
  else if c = 'e'.toNat ∨ c = 'E'.toNat then (ScanOp.scanContinue, { s with step := Step.stateE })
  else stateEndValue s c

def stateESign (s : Scanner) (c : Nat) : ScanOp × Scanner :=
  if isDigit c then (ScanOp.scanContinue, { s with step := Step.stateE0 }) else s.error

def stateE (s : Scanner) (c : Nat) : ScanOp × Scanner :=
  if c = '+'.toNat ∨ c = '-'.toNat then (ScanOp.scanContinue, { s with step := Step.stateESign })
  else stateESign s c

def stateE0 (s : Scanner) (c : Nat) : ScanOp × Scanner :=
  if isDigit c then (ScanOp.scanContinue, s) else stateEndValue s c

/-- The call `s.step(s, c)`: runs the state function the scanner is in. -/
def Scanner.callStep (s : Scanner) (c : Nat) : ScanOp × Scanner :=
  match s.step with
  | Step.stateBeginValueOrEmpty => stateBeginValueOrEmpty s c
  | Step.stateBeginValue => stateBeginValue s c
  | Step.stateBeginStringOrEmpty => stateBeginStringOrEmpty s c
  | Step.stateBeginString => stateBeginString s c
  | Step.stateEndValue => stateEndValue s c
  | Step.stateEndTop => stateEndTop s c
  | Step.stateInString => stateInString s c
  | Step.stateInStringEsc => stateInStringEsc s c
  | Step.stateInStringEscU => stateHex Step.stateInStringEscU1 s c
  | Step.stateInStringEscU1 => stateHex Step.stateInStringEscU12 s c
  | Step.stateInStringEscU12 => stateHex Step.stateInStringEscU123 s c
  | Step.stateInStringEscU123 => stateHex Step.stateInString s c
  | Step.stateNeg => stateNeg s c
  | Step.state1 => state1 s c
  | Step.state0 => state0 s c
  | Step.stateDot => stateDot s c
  | Step.stateDot0 => stateDot0 s c
  | Step.stateE => stateE s c
  | Step.stateESign => stateESign s c
  | Step.stateE0 => stateE0 s c
  | Step.stateT => stateLetter 'r' Step.stateTr s c
  | Step.stateTr => stateLetter 'u' Step.stateTru s c
  | Step.stateTru => stateLetter 'e' Step.stateEndValue s c
  | Step.stateF => stateLetter 'a' Step.stateFa s c
  | Step.stateFa => stateLetter 'l' Step.stateFal s c
  | Step.stateFal => stateLetter 's' Step.stateFals s c
  | Step.stateFals => stateLetter 'e' Step.stateEndValue s c
  | Step.stateN => stateLetter 'u' Step.stateNu s c
  | Step.stateNu => stateLetter 'l' Step.stateNul s c
  | Step.stateNul => stateLetter 'l' Step.stateEndValue s c
  | Step.stateError => (ScanOp.scanError, s)

/-! ## The stream decoder of `encoding/json` (stream.go) -/

/-- A `json.Decoder`: the input not yet consumed (what is buffered and what the reader
still holds), the scanner, the sticky error and the option set by
`DisallowUnknownFields`. -/
structure Decoder where
  r : Body
  scan : Scanner := {}
  err : Option GoError := none
  disallowUnknownFields : Bool := false
  deriving DecidableEq, Repr

/-- Go `json.NewDecoder(r)`. -/
def jsonNewDecoder (r : Body) : Decoder := { r := r }

/-- The method `DisallowUnknownFields` of the decoder. -/
def Decoder.DisallowUnknownFields (dec : Decoder) : Decoder :=
  { dec with disallowUnknownFields := true }

/-- How the scan of the buffered bytes in `readValue` ends: a value is complete after `n`
bytes, the scanner found a syntax error, or the bytes ran out. -/
inductive ReadLoop where
  | complete (n : Nat) (scan : Scanner)
  | failed (scan : Scanner)
  | needMore (scan : Scanner)
  deriving DecidableEq, Repr

/-- The inner loop of `Decoder.readValue` over the bytes not yet consumed; `n` counts the
bytes scanned so far. -/
def readValueLoop : Bytes → Scanner → Nat → ReadLoop
  | [], scan, _ => ReadLoop.needMore scan
  | c :: buf, scan, n =>
    match { scan with bytes := scan.bytes + 1 }.callStep c with
    | (ScanOp.scanEnd, scan) => ReadLoop.complete n { scan with bytes := scan.bytes - 1 }
    | (ScanOp.scanEndObject, scan) =>
      if (stateEndValue scan ' '.toNat).1 = ScanOp.scanEnd then
        ReadLoop.complete (n + 1) (stateEndValue scan ' '.toNat).2
      else readValueLoop buf (stateEndValue scan ' '.toNat).2 (n + 1)
    | (ScanOp.scanEndArray, scan) =>
      if (stateEndValue scan ' '.toNat).1 = ScanOp.scanEnd then
        ReadLoop.complete (n + 1) (stateEndValue scan ' '.toNat).2
      else readValueLoop buf (stateEndValue scan ' '.toNat).2 (n + 1)
    | (ScanOp.scanError, scan) => ReadLoop.failed scan
    | (_, scan) => readValueLoop buf scan (n + 1)

/-- The function `nonSpace` of stream.go. -/
def nonSpace (b : Bytes) : Bool := b.any (fun c => !isSpace c)

/-- The method `readValue` of the decoder, together with the `dec.scanp += n` of its
caller: the text of the next value, or the error.  Once the buffered bytes run out the
reader has only its final error to give.  After `scanError` the error is the one the
scanner recorded, `dec.scan.err`. -/
def Decoder.readValue (dec : Decoder) : Except GoError Bytes × Decoder :=
  match readValueLoop dec.r.data dec.scan.reset 0 with
  | ReadLoop.complete n scan =>
    (Except.ok (dec.r.data.take n),
      { dec with scan := scan, r := { dec.r with data := dec.r.data.drop n } })
  | ReadLoop.failed scan =>
    (Except.error (scan.err.getD (GoError.syntaxError scan.bytes)),
      { dec with scan := scan, err := some (scan.err.getD (GoError.syntaxError scan.bytes)) })
  | ReadLoop.needMore scan =>
    if dec.r.fin = GoError.errEOF then
      if (scan.callStep ' '.toNat).1 = ScanOp.scanEnd then
        (Except.ok dec.r.data,
          { dec with scan := (scan.callStep ' '.toNat).2, r := { dec.r with data := [] } })
      else if nonSpace dec.r.data then
        (Except.error GoError.errUnexpectedEOF,
          { dec with scan := (scan.callStep ' '.toNat).2, err := some GoError.errUnexpectedEOF })
      else
        (Except.error GoError.errEOF,
          { dec with scan := (scan.callStep ' '.toNat).2, err := some GoError.errEOF })
    else (Except.error dec.r.fin, { dec with scan := scan, err := some dec.r.fin })

/-- The method `Decode` of the decoder.  `unmarshal` is `d.unmarshal(v)` for the Go type
of the destination `v`: from the option `disallowUnknownFields` and the text of one
value, the value stored or the error.  (The token state of the decoder stays
`tokenTopValue`, the program never calls `Token`.) -/
def Decoder.Decode {α : Type} (dec : Decoder) (unmarshal : Bool → Bytes → Except GoError α) :
    Except GoError α × Decoder :=
  match dec.err with
  | some e => (Except.error e, dec)
  | none =>
    match dec.readValue with
    | (Except.error e, dec) => (Except.error e, dec)
    | (Except.ok text, dec) => (unmarshal dec.disallowUnknownFields text, dec)

/-! ## Go maps and the values `encoding/json` stores in an `interface{}` -/

/-- The statement `m[k] = v` on a Go map, kept as the list of its entries: the entry
of `k` is replaced, or a new entry is added. -/
def mapSet {β : Type} : List (Bytes × β) → Bytes → β → List (Bytes × β)
  | [], k, v => [(k, v)]
  | (k', v') :: rest, k, v => if k' = k then (k, v) :: rest else (k', v') :: mapSet rest k v

/-- The expression `m[k]` on a Go map, with whether the key is present. -/
def mapGet {β : Type} : List (Bytes × β) → Bytes → Option β
  | [], _ => none
  | (k', v') :: rest, k => if k' = k then some v' else mapGet rest k

/-- The keys of a Go map. -/
def mapKeys {β : Type} (m : List (Bytes × β)) : List Bytes := m.map Prod.fst

/-- A Go value of type `interface{}` as `encoding/json` stores it or as the handlers
build it: `nil`, a `bool`, a `float64`, a `string`, a `[]interface{}` or a
`map[string]interface{}`.  A `float64` is kept as the number literal it is converted
from (two literals of the same number are two values here). -/
inductive Value where
  | null
  | bool (b : Bool)
  | number (literal : Bytes)
  | string (s : Bytes)
  | array (elems : List Value)
  | object (m : List (Bytes × Value))
  deriving Repr

/-- A Go `map[string]interface{}`, the log record.  The nil map and the empty map are
both the empty list: the program never tells them apart. -/
abbrev Record := List (Bytes × Value)

/-! ## Unquoting a string literal (`unquoteBytes` of decode.go, `unicode/utf8`) -/

def runeError : Nat := 0xFFFD

/-- Go `utf8.EncodeRune`: the UTF-8 encoding of a rune, of `U+FFFD` for a surrogate or a
rune out of range. -/
def utf8EncodeRune (r : Nat) : Bytes :=
  if r ≤ 0x7F then [r]
  else if r ≤ 0x7FF then [0xC0 + r / 64, 0x80 + r % 64]
  else if 0x10FFFF < r ∨ (0xD800 ≤ r ∧ r ≤ 0xDFFF) then [0xEF, 0xBF, 0xBD]
  else if r ≤ 0xFFFF then [0xE0 + r / 4096, 0x80 + r / 64 % 64, 0x80 + r % 64]
  else [0xF0 + r / 262144, 0x80 + r / 4096 % 64, 0x80 + r / 64 % 64, 0x80 + r % 64]

/-- The entry of the table `first` of `unicode/utf8` for a leading byte `≥ 0x80`: the
length of the sequence and the range accepted for its second byte; length `0` for a byte
that starts no sequence. -/
def utf8First (p0 : Nat) : Nat × Nat × Nat :=
  if 0xC2 ≤ p0 ∧ p0 ≤ 0xDF then (2, 0x80, 0xBF)
  else if p0 = 0xE0 then (3, 0xA0, 0xBF)
  else if 0xE1 ≤ p0 ∧ p0 ≤ 0xEC then (3, 0x80, 0xBF)
  else if p0 = 0xED then (3, 0x80, 0x9F)
  else if 0xEE ≤ p0 ∧ p0 ≤ 0xEF then (3, 0x80, 0xBF)
  else if p0 = 0xF0 then (4, 0x90, 0xBF)
  else if 0xF1 ≤ p0 ∧ p0 ≤ 0xF3 then (4, 0x80, 0xBF)
  else if p0 = 0xF4 then (4, 0x80, 0x8F)
  else (0, 0, 0)

def isContinuation (b : Nat) : Bool := decide (0x80 ≤ b) && decide (b ≤ 0xBF)

/-- Go `utf8.DecodeRune`: the first rune of `p` and its width in bytes; `(U+FFFD, 1)` for
an invalid encoding and `(U+FFFD, 0)` for the empty slice. -/
def utf8DecodeRune (p : Bytes) : Nat × Nat :=
  match p with
  | [] => (runeError, 0)
  | p0 :: rest =>
    if p0 < 0x80 then (p0, 1)
    else
      match utf8First p0, rest with
      | (2, lo, hi), b1 :: _ =>
        if b1 < lo ∨ hi < b1 then (runeError, 1) else (p0 % 32 * 64 + b1 % 64, 2)
      | (3, lo, hi), b1 :: b2 :: _ =>
        if b1 < lo ∨ hi < b1 then (runeError, 1)
        else if !isContinuation b2 then (runeError, 1)
        else (p0 % 16 * 4096 + b1 % 64 * 64 + b2 % 64, 3)
      | (4, lo, hi), b1 :: b2 :: b3 :: _ =>
        if b1 < lo ∨ hi < b1 then (runeError, 1)
        else if !isContinuation b2 then (runeError, 1)
        else if !isContinuation b3 then (runeError, 1)
        else (p0 % 8 * 262144 + b1 % 64 * 4096 + b2 % 64 * 64 + b3 % 64, 4)
      | _, _ => (runeError, 1)

/-- The value of a hexadecimal digit. -/
def unhex (c : Nat) : Nat :=
  if isDigit c then c - '0'.toNat
  else if 'a'.toNat ≤ c ∧ c ≤ 'f'.toNat then c - 'a'.toNat + 10
  else if 'A'.toNat ≤ c ∧ c ≤ 'F'.toNat then c - 'A'.toNat + 10
  else 0

/-- The function `getu4` of decode.go: the rune of a leading `\uXXXX`, if there is one. -/
def getu4 (s : Bytes) : Option Nat :=
  match s with
  | b :: u :: h1 :: h2 :: h3 :: h4 :: _ =>
    if b = '\\'.toNat ∧ u = 'u'.toNat ∧ isHexDigit h1 ∧ isHexDigit h2 ∧ isHexDigit h3
        ∧ isHexDigit h4 then
      some (((unhex h1 * 16 + unhex h2) * 16 + unhex h3) * 16 + unhex h4)
    else none
  | _ => none

/-- Go `utf16.IsSurrogate`. -/
def utf16IsSurrogate (r : Nat) : Bool := decide (0xD800 ≤ r) && decide (r < 0xE000)

/-- Go `utf16.DecodeRune(r1, r2)`, `r2` missing when `getu4` found no second escape. -/
def utf16DecodeRune (r1 : Nat) (r2 : Option Nat) : Nat :=
  match r2 with
  | some r2 =>
    if 0xD800 ≤ r1 ∧ r1 < 0xDC00 ∧ 0xDC00 ≤ r2 ∧ r2 < 0xE000 then
      (r1 - 0xD800) * 1024 + (r2 - 0xDC00) + 0x10000
    else runeError
  | none => runeError

/-- The rewriting loop of `unquoteBytes`, on the bytes between the quotes: escapes are
resolved and invalid UTF-8 is replaced by `U+FFFD`; `none` when the bytes are no string
body.  The second argument counts the bytes still to skip of a sequence already
rewritten.  (The first loop of `unquoteBytes` only finds out whether anything has to be
rewritten.) -/
def unquoteLoop : Bytes → Nat → Option Bytes
  | [], _ => some []
  | _ :: s, skip + 1 => unquoteLoop s skip
  | c :: s, 0 =>
    if c = '\\'.toNat then
      match s with
      | [] => none
      | e :: _ =>
        if e = '"'.toNat ∨ e = '\\'.toNat ∨ e = '/'.toNat ∨ e = '\''.toNat then
          (unquoteLoop s 1).map (e :: ·)
        else if e = 'b'.toNat then (unquoteLoop s 1).map (8 :: ·)
        else if e = 'f'.toNat then (unquoteLoop s 1).map (12 :: ·)
        else if e = 'n'.toNat then (unquoteLoop s 1).map (10 :: ·)
        else if e = 'r'.toNat then (unquoteLoop s 1).map (13 :: ·)
        else if e = 't'.toNat then (unquoteLoop s 1).map (9 :: ·)
        else if e = 'u'.toNat then
          match getu4 (c :: s) with
          | none => none
          | some rr =>
            if utf16IsSurrogate rr then
              if utf16DecodeRune rr (getu4 (s.drop 5)) ≠ runeError then
                (unquoteLoop s 11).map (utf8EncodeRune (utf16DecodeRune rr (getu4 (s.drop 5))) ++ ·)
              else (unquoteLoop s 5).map (utf8EncodeRune runeError ++ ·)
            else (unquoteLoop s 5).map (utf8EncodeRune rr ++ ·)
        else none
    else if c = '"'.toNat ∨ c < ' '.toNat then none
    else if c < 0x80 then (unquoteLoop s 0).map (c :: ·)
    else
      (unquoteLoop s ((utf8DecodeRune (c :: s)).2 - 1)).map
        (utf8EncodeRune (utf8DecodeRune (c :: s)).1 ++ ·)

/-- The function `unquoteBytes` of decode.go: the string a quoted literal stands for. -/
def unquoteBytes (s : Bytes) : Option Bytes :=
  if s.length < 2 ∨ s.head? ≠ some '"'.toNat ∨ s.getLast? ≠ some '"'.toNat then none
  else unquoteLoop (s.drop 1).dropLast 0

/-! ## Converting a number (`strconv.ParseFloat`) -/

/-- The power `10 ^ n`. -/
def pow10 : Nat → Nat
  | 0 => 1
  | n + 1 => 10 * pow10 n

/-- The number a string of decimal digits stands for. -/
def digitsValue (ds : Bytes) : Nat := ds.foldl (fun n c => n * 10 + (c - '0'.toNat)) 0

/-- The least magnitude that `float64` cannot hold, `2 ^ 1024 - 2 ^ 970`: half a unit in
the last place above the largest `float64`, from where rounding to nearest even gives
infinity. -/
def float64Bound : Nat :=
  0xFFFFFFFFFFFFFC00000000000000000000000000000000000000000000000000000000000000000000000000000000000000000000000000000000000000000000000000000000000000000000000000000000000000000000000000000000000000000000000000000000000000000000000000000000000000000000000000

/-- The digits of the mantissa of a JSON number literal (sign dropped, integer and
fraction digits together) and its decimal exponent, so that the literal stands for
`mantissa * 10 ^ exponent` up to sign. -/
def numberParts (lit : Bytes) : Nat × Int :=
  let unsigned := if lit.head? = some '-'.toNat then lit.drop 1 else lit
  let intDigits := unsigned.takeWhile isDigit
  let afterInt := unsigned.dropWhile isDigit
  let fracDigits :=
    if afterInt.head? = some '.'.toNat then (afterInt.drop 1).takeWhile isDigit else []
  let afterFrac :=
    if afterInt.head? = some '.'.toNat then (afterInt.drop 1).dropWhile isDigit else afterInt
  let expPart := afterFrac.drop 1
  let expDigits :=
    if expPart.head? = some '+'.toNat ∨ expPart.head? = some '-'.toNat then expPart.drop 1
    else expPart
  let expValue : Int :=
    if expPart.head? = some '-'.toNat then - (digitsValue expDigits : Int)
    else (digitsValue expDigits : Int)
  (digitsValue (intDigits ++ fracDigits), expValue - (fracDigits.length : Int))

/-- Whether `strconv.ParseFloat(s, 64)` reports a range error for the JSON number literal
`s`: the magnitude of the literal, rounded to the nearest `float64`, is infinite.  (A
literal too small for `float64` is rounded towards zero without error.) -/
def parseFloatRangeError (lit : Bytes) : Bool :=
  match (numberParts lit).2 with
  | Int.ofNat e => decide (float64Bound ≤ (numberParts lit).1 * pow10 e)
  | Int.negSucc e => decide (float64Bound * pow10 (e + 1) ≤ (numberParts lit).1)

/-! ## Unmarshalling one value (decode.go) -/

/-- What the conversion of a literal gives: a value, the range error of `convertNumber`,
or nothing when the bytes are no literal. -/
inductive Literal where
  | value (v : Value)
  | rangeError
  | invalid
  deriving Repr

/-- The method `literalInterface` of the decode state: the value of a literal; for a
number, `convertNumber` fails when `strconv.ParseFloat` reports a range error. -/
def literalInterface (item : Bytes) : Literal :=
  match item with
  | [] => Literal.invalid
  | c :: _ =>
    if c = 'n'.toNat then Literal.value Value.null
    else if c = 't'.toNat then Literal.value (Value.bool true)
    else if c = 'f'.toNat then Literal.value (Value.bool false)
    else if c = '"'.toNat then
      match unquoteBytes item with
      | some str => Literal.value (Value.string str)
      | none => Literal.invalid
    else if parseFloatRangeError item then Literal.rangeError
    else Literal.value (Value.number item)

/-- The Go type a value of the text is decoded into: `interface{}`,
`map[string]interface{}`, `[]map[string]interface{}`, `struct{}` (with the option
`disallowUnknownFields` of the decode state, which only a struct consults), or none at
all for a value that is skipped (the value of an unknown field, the inside of a value of
the wrong kind). -/
inductive GoType where
  | anyValue
  | mapAny
  | sliceOfMap
  | emptyStruct (disallowUnknownFields : Bool)
  | skipped
  deriving DecidableEq, Repr

/-- An array or object the decode state is inside of: what it holds so far and the type
its elements are decoded into; an object also has the key that waits for its value and
whether a key is an error: it is when the object is decoded into a struct, whose fields
are all unknown, under `disallowUnknownFields`. -/
inductive Frame where
  | array (elems : List Value) (elemType : GoType)
  | object (m : Record) (key : Option Bytes) (elemType : GoType) (unknownFields : Bool)
  deriving Repr

/-- The decode state while it walks the text of a value: the type of the destination,
the containers it is inside of (innermost first), the literal being read, the finished
top-level value, the first error saved by `saveError`, and whether the text was a value
so far. -/
structure DecodeState where
  target : GoType
  stack : List Frame := []
  lit : Option Bytes := none
  top : Option Value := none
  savedError : Option GoError := none
  ok : Bool := true
  deriving Repr

/-- The method `saveError` of the decode state: keeps the first error. -/
def DecodeState.saveError (d : DecodeState) (err : GoError) : DecodeState :=
  match d.savedError with
  | none => { d with savedError := some err }
  | some _ => d

/-- The type the next value is decoded into: that of the destination at the top level,
that of the elements inside an array or an object. -/
def DecodeState.expected (d : DecodeState) : GoType :=
  match d.stack with
  | [] => d.target
  | Frame.array _ elemType :: _ => elemType
  | Frame.object _ _ elemType _ :: _ => elemType

/-- Whether the next literal is the key of an object. -/
def DecodeState.atKey (d : DecodeState) : Bool :=
  match d.stack with
  | Frame.object _ none _ _ :: _ => true
  | _ => false

/-- Stores a finished value where it belongs: as the top-level value, as the next element
of the array, or as the value of the waiting key. -/
def DecodeState.store (d : DecodeState) (v : Value) : DecodeState :=
  match d.stack with
  | [] => { d with top := some v }
  | Frame.array elems elemType :: rest =>
    { d with stack := Frame.array (elems ++ [v]) elemType :: rest }
  | Frame.object m (some k) elemType unknownFields :: rest =>
    { d with stack := Frame.object (mapSet m k v) none elemType unknownFields :: rest }
  | Frame.object _ none _ _ :: _ => { d with ok := false }

/-- A key of an object was read: it waits for its value; in a struct under
`disallowUnknownFields` it is an unknown field. -/
def DecodeState.storeKey (d : DecodeState) (item : Bytes) : DecodeState :=
  match d.stack, unquoteBytes item with
  | Frame.object m none elemType unknownFields :: rest, some key =>
    if unknownFields then
      { d with stack := Frame.object m (some key) elemType unknownFields :: rest }.saveError
        (GoError.unknownField key)
    else { d with stack := Frame.object m (some key) elemType unknownFields :: rest }
  | _, _ => { d with ok := false }

/-- A literal that is a value ended before the byte at index `i`.  Decoded into an
`interface{}` it is converted, and a number out of range is an `UnmarshalTypeError` at
the read offset `d.off`, one past `i`; decoded into a map, a slice or a struct only
`null` is accepted, anything else is an `UnmarshalTypeError` at `d.readIndex()`, which is
`i`; a skipped literal is not looked at. -/
def DecodeState.storeLiteral (d : DecodeState) (item : Bytes) (i : Nat) : DecodeState :=
  match d.expected with
  | GoType.skipped => d.store Value.null
  | GoType.anyValue =>
    match literalInterface item with
    | Literal.value v => d.store v
    | Literal.rangeError =>
      (d.saveError (GoError.unmarshalTypeError [] (i + 1))).store Value.null
    | Literal.invalid => { d with ok := false }
  | _ =>
    if item.head? = some 'n'.toNat then d.store Value.null
    else (d.saveError (GoError.unmarshalTypeError [] i)).store Value.null

/-- Ends the literal being read, if there is one, before the byte at index `i`. -/
def DecodeState.endLiteral (d : DecodeState) (i : Nat) : DecodeState :=
  match d.lit with
  | none => d
  | some item =>
    if d.atKey then { d with lit := none }.storeKey item
    else { d with lit := none }.storeLiteral item i

/-- An array begins at index `i`: into an `interface{}` or a slice it is decoded, its
elements as `interface{}` or as maps; into a map or a struct it is an
`UnmarshalTypeError` at the read offset `i + 1` and is skipped. -/
def DecodeState.beginArray (d : DecodeState) (i : Nat) : DecodeState :=
  match d.expected with
  | GoType.anyValue => { d with stack := Frame.array [] GoType.anyValue :: d.stack }
  | GoType.sliceOfMap => { d with stack := Frame.array [] GoType.mapAny :: d.stack }
  | GoType.skipped => { d with stack := Frame.array [] GoType.skipped :: d.stack }
  | _ =>
    { d.saveError (GoError.unmarshalTypeError [] (i + 1)) with
      stack := Frame.array [] GoType.skipped :: d.stack }

/-- An object begins at index `i`: into an `interface{}` or a map it is decoded, its
values as `interface{}`; into a struct its fields are all unknown and their values are
skipped; into a slice it is an `UnmarshalTypeError` at the read offset `i + 1` and is
skipped. -/
def DecodeState.beginObject (d : DecodeState) (i : Nat) : DecodeState :=
  match d.expected with
  | GoType.anyValue =>
    { d with stack := Frame.object [] none GoType.anyValue false :: d.stack }
  | GoType.mapAny => { d with stack := Frame.object [] none GoType.anyValue false :: d.stack }
  | GoType.emptyStruct disallowUnknownFields =>
    { d with stack := Frame.object [] none GoType.skipped disallowUnknownFields :: d.stack }
  | GoType.skipped => { d with stack := Frame.object [] none GoType.skipped false :: d.stack }
  | GoType.sliceOfMap =>
    { d.saveError (GoError.unmarshalTypeError [] (i + 1)) with
      stack := Frame.object [] none GoType.skipped false :: d.stack }

/-- The innermost container ends: it is stored as a value. -/
def DecodeState.endContainer (d : DecodeState) : DecodeState :=
  match d.stack with
  | Frame.object m none _ _ :: rest => { d with stack := rest }.store (Value.object m)
  | Frame.array elems _ :: rest => { d with stack := rest }.store (Value.array elems)
  | _ => { d with ok := false }

/-- One byte `c` at index `i` of the text, for which the scanner returned `op`. -/
def DecodeState.step (d : DecodeState) (op : ScanOp) (c : Nat) (i : Nat) : DecodeState :=
  match op with
  | ScanOp.scanContinue =>
    match d.lit with
    | some item => { d with lit := some (item ++ [c]) }
    | none => d
  | ScanOp.scanBeginLiteral => { d.endLiteral i with lit := some [c] }
  | ScanOp.scanBeginObject => (d.endLiteral i).beginObject i
  | ScanOp.scanBeginArray => (d.endLiteral i).beginArray i
  | ScanOp.scanEndObject => (d.endLiteral i).endContainer
  | ScanOp.scanEndArray => (d.endLiteral i).endContainer
  | ScanOp.scanError => { d with ok := false }
  | _ => d.endLiteral i

/-- The walk of the decode state over the text of a value, the scanner telling what
each byte is. -/
def decodeLoop : Bytes → Nat → Scanner → DecodeState → DecodeState
  | [], i, _, d => d.endLiteral i
  | c :: data, i, scan, d =>
    decodeLoop data (i + 1) (scan.callStep c).2 (d.step (scan.callStep c).1 c i)

/-- The error that stands for the panic of a decode state out of sync. -/
def errOutOfSync : GoError :=
  GoError.errorString (ascii "JSON decoder out of sync - data changing underfoot?")

/-- The method `unmarshal` of the decode state for a destination of type `target`: the
value read from the text of one value, or the first error saved.  A text that is no
value, which `readValue` excludes, makes Go panic with "JSON decoder out of sync". -/
def decodeText (target : GoType) (text : Bytes) : Except GoError Value :=
  let d := decodeLoop text 0 {} { target := target }
  if d.ok ∧ d.stack.isEmpty then
    match d.savedError, d.top with
    | some err, _ => Except.error err
    | none, some v => Except.ok v
    | none, none => Except.error errOutOfSync
  else Except.error errOutOfSync

/-- A decoded value as a `map[string]interface{}`: the map of an object, the nil map of
`null`. -/
def Value.toRecord : Value → Record
  | Value.object m => m
  | _ => []

/-- The call `d.unmarshal(v)` for `v` of type `*map[string]interface{}` pointing to a nil
map: an object gives the map of its members, `null` leaves the nil map, anything else is
an `UnmarshalTypeError`. -/
def unmarshalMap (_disallowUnknownFields : Bool) (text : Bytes) : Except GoError Record :=
  match decodeText GoType.mapAny text with
  | Except.error err => Except.error err
  | Except.ok v => Except.ok v.toRecord

/-- The call `d.unmarshal(v)` for `v` of type `*[]map[string]interface{}` pointing to an
empty slice: an array gives the slice of its elements, `null` the nil slice, anything
else is an `UnmarshalTypeError`. -/
def unmarshalMapSlice (_disallowUnknownFields : Bool) (text : Bytes) :
    Except GoError (List Record) :=
  match decodeText GoType.sliceOfMap text with
  | Except.error err => Except.error err
  | Except.ok (Value.array elems) => Except.ok (elems.map Value.toRecord)
  | Except.ok _ => Except.ok []

/-- The call `d.unmarshal(v)` for `v` of type `*struct{}`: an object is accepted, but with
`disallowUnknownFields` its first key is an unknown field; `null` is accepted; anything
else is an `UnmarshalTypeError`. -/
def unmarshalEmptyStruct (disallowUnknownFields : Bool) (text : Bytes) : Except GoError Unit :=
  match decodeText (GoType.emptyStruct disallowUnknownFields) text with
  | Except.error err => Except.error err
  | Except.ok _ => Except.ok ()

/-! ## `decodeJSONBody` (handlers.go) -/

/-- An argument of a `fmt.Sprintf` call: an integer for `%d`, a string for `%s`, a
string to be quoted by `strconv.Quote` for `%q` (or for `%s` of a text that
`encoding/json` quoted already). -/
inductive FmtArg where
  | int (n : Nat)
  | str (s : Bytes)
  | quoted (s : Bytes)
  deriving DecidableEq, Repr

/-- A message: the constant string or the `fmt.Sprintf` call that builds it, with its
format and its arguments (the text is not rendered). -/
structure Message where
  format : String
  args : List FmtArg := []
  deriving DecidableEq, Repr

/-- The struct `malformedRequest` of handlers.go. -/
structure malformedRequest where
  status : Nat
  msg : Message
  deriving DecidableEq, Repr

/-- The `error` that `decodeJSONBody` returns when it is not nil: a `*malformedRequest`
or an error of the decoder handed on. -/
inductive DecodeError where
  | malformed (mr : malformedRequest)
  | plain (err : GoError)
  deriving DecidableEq, Repr

def StatusOK : Nat := 200
def StatusBadRequest : Nat := 400
def StatusRequestEntityTooLarge : Nat := 413
def StatusUnsupportedMediaType : Nat := 415

/-- The switch of `decodeJSONBody` on the error of the first `Decode`, its cases in the
order of the source.  The `Error()` text is asked only of an error that is none of
`*json.SyntaxError`, `io.ErrUnexpectedEOF` and `*json.UnmarshalTypeError`: it starts
with "json: unknown field " for the unknown-field error of `encoding/json`, it is "EOF"
for `io.EOF`, and it is the text itself for every other error. -/
def decodeErrorOf (err : GoError) : DecodeError :=
  match err with
  | GoError.syntaxError offset =>
    DecodeError.malformed
      { status := StatusBadRequest,
        msg := { format := "Request body contains badly-formed JSON (at position %d)",
                 args := [FmtArg.int offset] } }
  | GoError.errUnexpectedEOF =>
    DecodeError.malformed
      { status := StatusBadRequest, msg := { format := "Request body contains badly-formed JSON" } }
  | GoError.unmarshalTypeError field offset =>
    DecodeError.malformed
      { status := StatusBadRequest,
        msg := { format := "Request body contains an invalid value for the %q field (at position %d)",
                 args := [FmtArg.quoted field, FmtArg.int offset] } }
  | GoError.unknownField key =>
    DecodeError.malformed
      { status := StatusBadRequest,
        msg := { format := "Request body contains unknown field %s", args := [FmtArg.quoted key] } }
  | GoError.errEOF =>
    DecodeError.malformed
      { status := StatusBadRequest, msg := { format := "Request body must not be empty" } }
  | GoError.errorString text =>
    if stringsHasPrefix text (ascii "json: unknown field ") then
      DecodeError.malformed
        { status := StatusBadRequest,
          msg := { format := "Request body contains unknown field %s",
                   args := [FmtArg.str (stringsTrimPrefix text (ascii "json: unknown field "))] } }
    else if text = ascii "http: request body too large" then
      DecodeError.malformed
        { status := StatusRequestEntityTooLarge,
          msg := { format := "Request body must not be larger than 1MB" } }
    else DecodeError.plain err

/-- The function `decodeJSONBody` of handlers.go.  The destination `dst` is given by
`unmarshalDst`, what `d.unmarshal` does for it; the result is the error, or the value
stored in `dst` when the error is nil.  (The two nested tests of the header are one
condition here.) -/
def decodeJSONBody {α : Type} (r : Request) (unmarshalDst : Bool → Bytes → Except GoError α) :
    Except DecodeError α :=
  if r.contentType ≠ [] ∧ headerParseValueAndParams r.contentType ≠ ascii "application/json" then
    Except.error (DecodeError.malformed
      { status := StatusUnsupportedMediaType,
        msg := { format := "Content-Type header is not application/json" } })
  else
    let body := httpMaxBytesReader r.body 1048576
    let dec := (jsonNewDecoder body).DisallowUnknownFields
    match dec.Decode unmarshalDst with
    | (Except.error err, _) => Except.error (decodeErrorOf err)
    | (Except.ok dst, dec) =>
      match (dec.Decode unmarshalEmptyStruct).1 with
      | Except.error GoError.errEOF => Except.ok dst
      | _ =>
        Except.error (DecodeError.malformed
          { status := StatusBadRequest,
            msg := { format := "Request body must only contain a single JSON object" } })

/-! ## `net/url`: the query of a URL -/

/-- Go `strings.Cut(s, sep)` for a one-byte separator. -/
def stringsCut (s : Bytes) (sep : Nat) : Bytes × Bytes × Bool :=
  match stringsIndexByte s sep with
  | some i => (s.take i, s.drop (i + 1), true)
  | none => (s, [], false)

/-- Go `url.QueryUnescape`: `%XX` becomes the byte and `+` a space; `none` for a
malformed escape. -/
def urlQueryUnescape : Bytes → Option Bytes
  | [] => some []
  | c :: s =>
    if c = '%'.toNat then
      match s with
      | h1 :: h2 :: rest =>
        if isHexDigit h1 ∧ isHexDigit h2 then
          (urlQueryUnescape rest).map ((unhex h1 * 16 + unhex h2) :: ·)
        else none
      | _ => none
    else if c = '+'.toNat then (urlQueryUnescape s).map (' '.toNat :: ·)
    else (urlQueryUnescape s).map (c :: ·)

/-- One turn of the loop of `url.parseQuery` on a piece between `&`: the parameter it
holds, or nothing when the piece is skipped (it has a semicolon, it is empty, or an
escape is malformed). -/
def parseQueryPiece (key : Bytes) : Option (Bytes × Bytes) :=
  if ';'.toNat ∈ key then none
  else if key = [] then none
  else
    match urlQueryUnescape (stringsCut key '='.toNat).1,
          urlQueryUnescape (stringsCut key '='.toNat).2.1 with
    | some k, some v => some (k, v)
    | _, _ => none

/-- The query parameters of a raw query, name and value, in the order they occur. -/
def queryParams (query : Bytes) : List (Bytes × Bytes) :=
  (stringsSplit query '&'.toNat).filterMap parseQueryPiece

/-- A Go `url.Values`, a `map[string][]string`. -/
abbrev Values := List (Bytes × List Bytes)

/-- The statement `m[key] = append(m[key], value)` of `url.parseQuery`. -/
def valuesAppend (m : Values) (p : Bytes × Bytes) : Values :=
  mapSet m p.1 ((mapGet m p.1).getD [] ++ [p.2])

/-- The method `(*URL).Query`: `url.ParseQuery` of the raw query, its error dropped. -/
def urlQuery (rawQuery : Bytes) : Values :=
  (queryParams rawQuery).foldl valuesAppend []

/-- The method `Values.Get`: the first value of the key, or the empty string. -/
def Values.Get (v : Values) (key : Bytes) : Bytes :=
  match (mapGet v key).getD [] with
  | [] => []
  | first :: _ => first

/-! ## The handlers (handlers.go) -/

/-- A goroutine the program starts: `go logOne(m)`. -/
inductive Goroutine where
  | logOne (m : Record)
  deriving Repr

/-- What a handler returns: `nil` after `c.String(code, s)` wrote the response, or the
error `echo.NewHTTPError(code, message)`, which echo answers with the status `code`. -/
inductive HandlerResult where
  | string (code : Nat) (s : String)
  | httpError (code : Nat) (message : String)
  deriving DecidableEq, Repr

/-- The status code of the response. -/
def HandlerResult.status : HandlerResult → Nat
  | HandlerResult.string code _ => code
  | HandlerResult.httpError code _ => code

/-- The function `logSingle`: starts the goroutine `logOne(m)` and returns. The result
is the list of the goroutines started. -/
def logSingle (m : Record) : List Goroutine := [Goroutine.logOne m]

/-- The handler `logSinglePost`: its result and the goroutines it started. -/
def logSinglePost (r : Request) : HandlerResult × List Goroutine :=
  if r.contentType = ascii "application/json" ∨ r.contentType = ascii "text/plain" then
    match ((jsonNewDecoder r.body).Decode unmarshalMap).1 with
    | Except.error _ =>
      (HandlerResult.httpError StatusBadRequest "Unable to parse body as JSON", [])
    | Except.ok fields => (HandlerResult.string StatusOK "ok\n", logSingle fields)
  else (HandlerResult.httpError StatusBadRequest "content must be json", [])

/-- The handler `logSinglePut`: its result and the goroutines it started.  The loop over
the keys of `values` runs in the order of the entries (Go leaves the order open; the
keys are distinct, so the map built does not depend on it). -/
def logSinglePut (r : Request) : HandlerResult × List Goroutine :=
  let values := urlQuery r.rawQuery
  let fields : Record :=
    (mapKeys values).foldl (fun fields k => mapSet fields k (Value.string (values.Get k))) []
  (HandlerResult.string StatusOK "ok", logSingle fields)

/-- The handler `logMulti`: its result and the goroutines it started, in the order of
the loop. -/
def logMulti (r : Request) : HandlerResult × List Goroutine :=
  if r.contentType = ascii "application/json" ∨ r.contentType = ascii "text/plain" then
    match ((jsonNewDecoder r.body).Decode unmarshalMapSlice).1 with
    | Except.error _ =>
      (HandlerResult.httpError StatusBadRequest "Unable to parse body as array of JSON", [])
    | Except.ok ary =>
      (HandlerResult.string StatusOK "ok", ary.foldl (fun started v => started ++ logSingle v) [])
  else (HandlerResult.httpError StatusBadRequest "content must be json", [])

/-! ## Predicates of the statements -/

/-- The scanner has recorded no error other than a syntax error. -/
def Scanner.ErrIsSyntax (s : Scanner) : Prop :=
  ∀ e, s.err = some e → ∃ offset, e = GoError.syntaxError offset

/-- The error `TrailingData` of the specification: status 400, more than one value. -/
def TrailingData : DecodeError :=
  DecodeError.malformed
    { status := 400, msg := { format := "Request body must only contain a single JSON object" } }

/-- The error `BodyTooLarge` of the specification: status 413. -/
def BodyTooLarge : DecodeError :=
  DecodeError.malformed
    { status := 413, msg := { format := "Request body must not be larger than 1MB" } }

/-- The error `UnsupportedMediaType` of the specification: status 415. -/
def UnsupportedMediaType : DecodeError :=
  DecodeError.malformed
    { status := 415, msg := { format := "Content-Type header is not application/json" } }

/-- The first value of the specification's example. -/
def valueA1 : Bytes := ascii "\x7b\"a\":1\x7d"

/-- The second value of the specification's example. -/
def valueB2 : Bytes := ascii "\x7b\"b\":2\x7d"

/-- The body of the specification's example, two concatenated JSON values. -/
def twoValues : Bytes := valueA1 ++ valueB2

/-- The record of the first of the two values. -/
def recordA1 : Record := [(ascii "a", Value.number (ascii "1"))]

/-- The record of the second of the two values. -/
def recordB2 : Record := [(ascii "b", Value.number (ascii "2"))]

/-- A request with a content type and a body that ends regularly. -/
def postRequest (contentType : String) (body : Bytes) : Request :=
  { contentType := ascii contentType, rawQuery := [], body := { data := body } }

/-- A body over the limit: the empty object, then 1048576 spaces. -/
def emptyObjectPadded : Bytes := '\x7b'.toNat :: '\x7d'.toNat :: List.replicate 1048576 ' '.toNat

/-- A body over the limit that holds no value: 1048577 spaces. -/
def spaces1048577 : Bytes := List.replicate 1048577 ' '.toNat

/-- A request whose body breaks off with a read error of the connection. -/
def resetRequest : Request :=
  { contentType := ascii "application/json", rawQuery := [],
    body := { data := ascii "\x7b\"a\":",
              fin := GoError.errorString (ascii "read: connection reset by peer") } }

/-- The formats of the messages `decodeJSONBody` gives with status 400. -/
def badRequestFormats : List String :=
  [ "Request body contains badly-formed JSON (at position %d)",
    "Request body contains badly-formed JSON",
    "Request body contains an invalid value for the %q field (at position %d)",
    "Request body contains unknown field %s",
    "Request body must not be empty",
    "Request body must only contain a single JSON object" ]

/-- An error `decodeJSONBody` knows no case for: known by a text that neither starts
with "json: unknown field " nor is "http: request body too large". -/
def GoError.Unrecognised (err : GoError) : Prop :=
  ∃ text, err = GoError.errorString text ∧
    stringsHasPrefix text (ascii "json: unknown field ") = false ∧
    text ≠ ascii "http: request body too large"

/-- The record a goroutine hands to `logOne`, the Sink. -/
def Goroutine.arg : Goroutine → Record
  | Goroutine.logOne m => m

/-- A body that is an array of two objects. -/
def twoObjects : Bytes := ascii "[\x7b\"a\":1\x7d,\x7b\"b\":2\x7d]"

/-- A request whose query repeats a parameter. -/
def repeatedQuery : Request :=
  { contentType := [], rawQuery := ascii "a=1&a=2", body := { data := [] } }

/-- The bytes a media type is written with: token bytes and the slash. -/
def isMediaTypeByte (b : Nat) : Bool := isToken b || b == '/'.toNat

/-- The base media type of a Content-Type header is `application/json`, in the words of
the specification (the value with its parameters stripped): the header begins with
`application/json`, in any letter case, and this is followed by nothing or by a byte
that cannot continue a media type, such as the semicolon or the space before the
parameters. -/
def IsJSONMediaType (header : Bytes) : Prop :=
  ∃ mediaType rest, header = mediaType ++ rest ∧
    stringsToLower mediaType = ascii "application/json" ∧
    ∀ b, rest.head? = some b → isMediaTypeByte b = false

/-- A request with the two-value body and the content type `text/plain`. -/
def textPlainRequest : Request :=
  { contentType := ascii "text/plain", rawQuery := [], body := { data := twoValues } }

/-- A body that is an array of one object with a number beyond the `float64` range. -/
def hugeNumberArray : Bytes := ascii "[\x7b\"a\":1e400\x7d]"

/-- A body that is an object with a number beyond the `float64` range. -/
def hugeNumberObject : Bytes := ascii "\x7b\"a\":1e400\x7d"

/-- The media-type check of `decodeJSONBody` fails: the Content-Type header is not empty
and the value found in it is not `application/json`. -/
def MediaTypeRejected (r : Request) : Prop :=
  r.contentType ≠ [] ∧ headerParseValueAndParams r.contentType ≠ ascii "application/json"

/-- The first `Decode` of `decodeJSONBody`: its result and the decoder it leaves. -/
def firstDecode {α : Type} (r : Request) (unmarshalDst : Bool → Bytes → Except GoError α) :
    Except GoError α × Decoder :=
  (jsonNewDecoder (httpMaxBytesReader r.body 1048576)).DisallowUnknownFields.Decode unmarshalDst

/-- The comma-separated pieces of a configuration string, in the words of the
specification: a non-empty sequence of strings without a comma which, joined by commas,
give the configuration string. -/
def IsCommaSeparated (cfg : Bytes) (pieces : List Bytes) : Prop :=
  pieces ≠ [] ∧ (∀ p ∈ pieces, ','.toNat ∉ p) ∧ stringsJoin pieces ','.toNat = cfg

/-! ## Splitting the configuration string -/

theorem stringsIndexByte_append (p r : Bytes) (sep : Nat) (h : sep ∉ p) :
    stringsIndexByte (p ++ sep :: r) sep = some p.length := by
  induction p with
  | nil => simp [stringsIndexByte]
  | cons b bs ih =>
    have hb : b ≠ sep := fun e => h (by simp [e])
    have hbs : sep ∉ bs := fun e => h (by simp [e])
    simp [stringsIndexByte, hb, ih hbs]

theorem stringsIndexByte_none (p : Bytes) (sep : Nat) (h : sep ∉ p) :
    stringsIndexByte p sep = none := by
  induction p with
  | nil => simp [stringsIndexByte]
  | cons b bs ih =>
    have hb : b ≠ sep := fun e => h (by simp [e])
    have hbs : sep ∉ bs := fun e => h (by simp [e])
    simp [stringsIndexByte, hb, ih hbs]

theorem stringsCount_append (p r : Bytes) (sep : Nat) (h : sep ∉ p) :
    stringsCount (p ++ sep :: r) sep = stringsCount r sep + 1 := by
  induction p with
  | nil => simp [stringsCount]; omega
  | cons b bs ih =>
    have hb : b ≠ sep := fun e => h (by simp [e])
    have hbs : sep ∉ bs := fun e => h (by simp [e])
    simp [stringsCount, hb, ih hbs]

theorem stringsSplit_single (p : Bytes) (sep : Nat) (h : sep ∉ p) :
    stringsSplit p sep = [p] := by
  unfold stringsSplit
  cases hn : stringsCount p sep with
  | zero => rfl
  | succ n => simp [genSplitLoop, stringsIndexByte_none p sep h]

theorem stringsSplit_append (p r : Bytes) (sep : Nat) (h : sep ∉ p) :
    stringsSplit (p ++ sep :: r) sep = p :: stringsSplit r sep := by
  unfold stringsSplit
  rw [stringsCount_append p r sep h]
  simp [genSplitLoop, stringsIndexByte_append p r sep h]

/-- Splitting undoes joining: a sequence of separator-free pieces is what
`strings.Split` returns on their join. -/
theorem stringsSplit_join (ps : List Bytes) (sep : Nat) (hne : ps ≠ [])
    (h : ∀ p ∈ ps, sep ∉ p) : stringsSplit (stringsJoin ps sep) sep = ps := by
  induction ps with
  | nil => exact absurd rfl hne
  | cons p qs ih =>
    cases qs with
    | nil => simpa [stringsJoin] using stringsSplit_single p sep (h p (by simp))
    | cons q qs =>
      have hq : ∀ x ∈ q :: qs, sep ∉ x := fun x hx => h x (by simp [hx])
      simp only [stringsJoin]
      rw [stringsSplit_append p _ sep (h p (by simp)), ih (by simp) hq]

/-- Every string is the join of separator-free pieces. -/
theorem exists_pieces (s : Bytes) (sep : Nat) :
    ∃ ps : List Bytes, ps ≠ [] ∧ (∀ p ∈ ps, sep ∉ p) ∧ stringsJoin ps sep = s := by
  induction s with
  | nil => exact ⟨[[]], by simp, by simp, rfl⟩
  | cons c cs ih =>
    obtain ⟨ps, hne, hfree, hjoin⟩ := ih
    cases ps with
    | nil => exact absurd rfl hne
    | cons p qs =>
      by_cases hc : c = sep
      · refine ⟨[] :: p :: qs, by simp, ?_, ?_⟩
        · intro x hx
          rcases List.mem_cons.1 hx with rfl | hx
          · simp
          · exact hfree x hx
        · simp [stringsJoin, hjoin, hc]
      · refine ⟨(c :: p) :: qs, by simp, ?_, ?_⟩
        · intro x hx
          rcases List.mem_cons.1 hx with rfl | hx
          · have := hfree p (by simp)
            simp [this, Ne.symm hc]
          · exact hfree x (by simp [hx])
        · cases qs with
          | nil => simpa [stringsJoin] using hjoin
          | cons q qs => simpa [stringsJoin] using hjoin

/-- What `strings.Split` returns is the comma-separated decomposition of its argument. -/
theorem stringsSplit_isCommaSeparated (cfg : Bytes) :
    IsCommaSeparated cfg (stringsSplit cfg ','.toNat) := by
  obtain ⟨ps, hne, hfree, hjoin⟩ := exists_pieces cfg ','.toNat
  have := stringsSplit_join ps ','.toNat hne hfree
  rw [hjoin] at this
  rw [this]
  exact ⟨hne, hfree, hjoin⟩

theorem isCommaSeparated_unique (cfg : Bytes) (ps : List Bytes) (h : IsCommaSeparated cfg ps) :
    ps = stringsSplit cfg ','.toNat := by
  obtain ⟨hne, hfree, hjoin⟩ := h
  rw [← hjoin, stringsSplit_join ps _ hne hfree]

theorem StringSet.mem_Add (s : StringSet) (strs : List Bytes) (x : Bytes) :
    x ∈ (s.Add strs).data ↔ x ∈ s.data ∨ x ∈ strs := by
  unfold StringSet.Add
  induction strs generalizing s with
  | nil => simp
  | cons a as ih =>
    simp only [List.foldl_cons]
    rw [ih]
    unfold StringSet.add1
    by_cases ha : a ∈ s.data
    · simp only [ha, if_true, List.mem_cons]
      constructor
      · rintro (h | h)
        · exact Or.inl h
        · exact Or.inr (Or.inr h)
      · rintro (h | rfl | h)
        · exact Or.inl h
        · exact Or.inl ha
        · exact Or.inr h
    · simp only [ha, if_false, List.mem_append, List.mem_singleton, List.mem_cons]
      tauto

/-- C1: for every configuration value and every token, `tokenValidator` on the token
set that `main` builds by splitting the value on commas returns no error, and returns
true exactly when the token is one of the pieces `strings.Split` returns, which is
exactly when it is one of the comma-separated pieces of the value (the comma-free
strings that joined by commas give the value). -/
theorem tokenValidator_iff_piece (env : Option Bytes) (t : Bytes) :
    (tokenValidator (mainValidTokens env) t).2 = none ∧
    ((tokenValidator (mainValidTokens env) t).1 = true ↔
      t ∈ stringsSplit (osGetenv env) ','.toNat) ∧
    ((tokenValidator (mainValidTokens env) t).1 = true ↔
      ∃ pieces, IsCommaSeparated (osGetenv env) pieces ∧ t ∈ pieces) := by
  have hmem : (tokenValidator (mainValidTokens env) t).1 = true ↔
      t ∈ stringsSplit (osGetenv env) ','.toNat := by
    simp [tokenValidator, mainValidTokens, StringSet.Contains, StringSet.mem_Add,
      StringSet.New]
  refine ⟨rfl, hmem, hmem.trans ⟨fun h => ⟨_, stringsSplit_isCommaSeparated _, h⟩, ?_⟩⟩
  rintro ⟨ps, hps, ht⟩
  rw [← isCommaSeparated_unique _ ps hps]
  exact ht

/-- C7: when `LOGJAM_TOKENS` is not set or empty, splitting it on commas gives the one
token `""`, the token set built from it is `{""}`, `tokenValidator("")` is true and
`tokenValidator(t)` is false for every non-empty `t`. -/
theorem empty_configuration_accepts_empty_token (env : Option Bytes)
    (h : env = none ∨ env = some []) :
    stringsSplit (osGetenv env) ','.toNat = [[]] ∧
    mainValidTokens env = ⟨[[]]⟩ ∧
    tokenValidator (mainValidTokens env) [] = (true, none) ∧
    ∀ t : Bytes, t ≠ [] → tokenValidator (mainValidTokens env) t = (false, none) := by
  have hcfg : osGetenv env = [] := by rcases h with rfl | rfl <;> rfl
  have hv : mainValidTokens env = ⟨[[]]⟩ := by
    simp only [mainValidTokens, hcfg]
    rfl
  refine ⟨by rw [hcfg]; rfl, hv, by rw [hv]; rfl, ?_⟩
  intro t ht
  rw [hv]
  simp [tokenValidator, StringSet.Contains, ht]

/-- C7 at an environment without `LOGJAM_TOKENS`. -/
theorem empty_configuration_accepts_empty_token_witness :
    tokenValidator (mainValidTokens none) [] = (true, none) ∧
    tokenValidator (mainValidTokens none) (ascii "x") = (false, none) :=
  ⟨(empty_configuration_accepts_empty_token none (Or.inl rfl)).2.2.1,
   (empty_configuration_accepts_empty_token none (Or.inl rfl)).2.2.2 (ascii "x") (by decide)⟩


/-! ## The stream decoder -/

theorem Scanner.reset_default : ({} : Scanner).reset = {} := rfl

/-- What `readValue` leaves of the reader: the same final error. -/
theorem Decoder.readValue_fin (dec : Decoder) : dec.readValue.2.r.fin = dec.r.fin := by
  unfold Decoder.readValue
  generalize readValueLoop dec.r.data dec.scan.reset 0 = res
  rcases res with ⟨n, scan⟩ | ⟨scan⟩ | ⟨scan⟩
  · rfl
  · rfl
  · simp only
    split_ifs <;> rfl

/-- The sticky error after `readValue`: unchanged when a value was read. -/
theorem Decoder.readValue_ok_err (dec : Decoder) (text : Bytes)
    (h : dec.readValue.1 = Except.ok text) : dec.readValue.2.err = dec.err := by
  unfold Decoder.readValue at h ⊢
  generalize readValueLoop dec.r.data dec.scan.reset 0 = res at h ⊢
  rcases res with ⟨n, scan⟩ | ⟨scan⟩ | ⟨scan⟩
  · rfl
  · simp at h
  · simp only at h ⊢
    split_ifs at h ⊢
    rfl

/-- The text `readValue` returns and the bytes it leaves make up the bytes it found. -/
theorem Decoder.readValue_ok_data (dec : Decoder) (text : Bytes)
    (h : dec.readValue.1 = Except.ok text) : dec.r.data = text ++ dec.readValue.2.r.data := by
  unfold Decoder.readValue at h ⊢
  generalize readValueLoop dec.r.data dec.scan.reset 0 = res at h ⊢
  rcases res with ⟨n, scan⟩ | ⟨scan⟩ | ⟨scan⟩
  · simp only [Except.ok.injEq] at h
    simp [← h]
  · simp at h
  · simp only at h ⊢
    split_ifs at h ⊢
    simp_all

theorem Scanner.popParseState_err (s : Scanner) : s.popParseState.err = s.err := by
  unfold Scanner.popParseState
  dsimp only
  split_ifs <;> rfl

theorem Scanner.pushParseState_err (s : Scanner) (p : ParseState) (op : ScanOp) :
    (s.pushParseState p op).2.err = s.err ∨
      (s.pushParseState p op).2.err = some (GoError.syntaxError s.bytes) := by
  unfold Scanner.pushParseState Scanner.error
  dsimp only
  split_ifs <;> simp

theorem stateEndValue_err (s : Scanner) (c : Nat) :
    (stateEndValue s c).2.err = s.err ∨
      (stateEndValue s c).2.err = some (GoError.syntaxError s.bytes) := by
  unfold stateEndValue stateEndTop Scanner.error
  repeat' split
  all_goals simp [Scanner.popParseState_err]

theorem stateBeginValue_err (s : Scanner) (c : Nat) :
    (stateBeginValue s c).2.err = s.err ∨
      (stateBeginValue s c).2.err = some (GoError.syntaxError s.bytes) := by
  unfold stateBeginValue Scanner.error
  repeat' split
  all_goals first
    | exact Scanner.pushParseState_err _ _ _
    | simp

theorem stateBeginString_err (s : Scanner) (c : Nat) :
    (stateBeginString s c).2.err = s.err ∨
      (stateBeginString s c).2.err = some (GoError.syntaxError s.bytes) := by
  unfold stateBeginString Scanner.error
  repeat' split
  all_goals simp

theorem stateESign_err (s : Scanner) (c : Nat) :
    (stateESign s c).2.err = s.err ∨
      (stateESign s c).2.err = some (GoError.syntaxError s.bytes) := by
  unfold stateESign Scanner.error
  repeat' split
  all_goals simp

theorem state0_err (s : Scanner) (c : Nat) :
    (state0 s c).2.err = s.err ∨ (state0 s c).2.err = some (GoError.syntaxError s.bytes) := by
  unfold state0
  repeat' split
  all_goals first
    | exact stateEndValue_err _ _
    | simp

/-- A step of the scanner leaves its error as it is or records a syntax error. -/
theorem Scanner.callStep_err (s : Scanner) (c : Nat) :
    (s.callStep c).2.err = s.err ∨ (s.callStep c).2.err = some (GoError.syntaxError s.bytes) := by
  unfold Scanner.callStep
  split <;>
    (try simp only [stateBeginValueOrEmpty, stateBeginStringOrEmpty,
      stateInString, stateInStringEsc, stateHex, stateLetter, stateNeg, state1, stateDot,
      stateDot0, stateE, stateE0, stateEndTop, Scanner.error]) <;>
    (repeat' split) <;>
    first
      | exact stateEndValue_err _ _
      | exact stateBeginValue_err _ _
      | exact stateBeginString_err _ _
      | exact stateESign_err _ _
      | exact state0_err _ _
      | simp

theorem Scanner.errIsSyntax_of_err_eq {s t : Scanner} (h : s.ErrIsSyntax)
    (ht : t.err = s.err ∨ t.err = some (GoError.syntaxError s.bytes)) : t.ErrIsSyntax := by
  intro e he
  rcases ht with ht | ht
  · exact h e (ht ▸ he)
  · rw [ht] at he
    exact ⟨_, (Option.some.inj he).symm⟩

/-- The scan of `readValue` fails with a syntax error only. -/
theorem readValueLoop_failed (buf : Bytes) (scan : Scanner) (n : Nat) (scan' : Scanner)
    (h : scan.ErrIsSyntax) (hf : readValueLoop buf scan n = ReadLoop.failed scan') :
    scan'.ErrIsSyntax := by
  induction buf generalizing scan n with
  | nil => simp [readValueLoop] at hf
  | cons c buf ih =>
    have h1 : ({ scan with bytes := scan.bytes + 1 } : Scanner).ErrIsSyntax := h
    have h2 := Scanner.errIsSyntax_of_err_eq h1 (Scanner.callStep_err _ c)
    rw [readValueLoop] at hf
    generalize ({ scan with bytes := scan.bytes + 1 } : Scanner).callStep c = res at hf h2
    obtain ⟨op, s2⟩ := res
    have h3 := Scanner.errIsSyntax_of_err_eq h2 (stateEndValue_err s2 ' '.toNat)
    cases op <;> simp only at hf
    all_goals first
      | exact ih _ _ h2 hf
      | (split_ifs at hf
         exact ih _ _ h3 hf)
      | exact ReadLoop.noConfusion hf
      | (cases hf; exact h2)

/-- When `readValue` reports `io.EOF`, the reader ended with `io.EOF` and every byte
left was white space. -/
theorem Decoder.readValue_errEOF (dec : Decoder)
    (h : dec.readValue.1 = Except.error GoError.errEOF) :
    dec.r.fin = GoError.errEOF ∧ nonSpace dec.r.data = false := by
  unfold Decoder.readValue at h
  have hfail := readValueLoop_failed dec.r.data dec.scan.reset 0
  generalize readValueLoop dec.r.data dec.scan.reset 0 = res at h hfail
  rcases res with ⟨n, scan⟩ | ⟨scan⟩ | ⟨scan⟩
  · simp at h
  · have hs := hfail scan (by intro e he; simp [Scanner.reset] at he) rfl
    simp only [Except.error.injEq] at h
    cases herr : scan.err with
    | none => simp [herr] at h
    | some e =>
      obtain ⟨off, rfl⟩ := hs e herr
      simp [herr] at h
  · simp only at h
    split_ifs at h with h1 h2 h3
    · simp at h
    · exact ⟨h1, by simpa using h3⟩
    · simp only [Except.error.injEq] at h
      exact absurd h h1

theorem Decoder.Decode_ok {α : Type} (dec dec' : Decoder) (u : Bool → Bytes → Except GoError α)
    (v : α) (h : dec.Decode u = (Except.ok v, dec')) :
    ∃ text, dec.readValue.1 = Except.ok text ∧ u dec.disallowUnknownFields text = Except.ok v ∧
      dec.r.data = text ++ dec'.r.data ∧ dec'.r.fin = dec.r.fin ∧ dec'.err = none ∧
      dec'.disallowUnknownFields = dec.disallowUnknownFields := by
  unfold Decoder.Decode at h
  cases herr : dec.err with
  | some e => simp [herr] at h
  | none =>
    simp only [herr] at h
    have hd := Decoder.readValue_ok_data dec
    have he := Decoder.readValue_ok_err dec
    have hf := Decoder.readValue_fin dec
    have hflag : dec.readValue.2.disallowUnknownFields = dec.disallowUnknownFields := by
      unfold Decoder.readValue
      generalize readValueLoop dec.r.data dec.scan.reset 0 = res
      rcases res with ⟨n, scan⟩ | ⟨scan⟩ | ⟨scan⟩
      · rfl
      · rfl
      · simp only
        split_ifs <;> rfl
    generalize dec.readValue = res at h hd he hf hflag
    obtain ⟨r1, d1⟩ := res
    cases r1 with
    | error e => simp at h
    | ok text =>
      simp only [Prod.mk.injEq] at h
      obtain ⟨h1, rfl⟩ := h
      exact ⟨text, rfl, hflag ▸ h1, hd text rfl, hf, (he text rfl).trans herr, hflag⟩

theorem Decoder.Decode_errEOF {α : Type} (dec : Decoder) (u : Bool → Bytes → Except GoError α)
    (herr : dec.err = none) (hu : ∀ b text, u b text ≠ Except.error GoError.errEOF)
    (h : (dec.Decode u).1 = Except.error GoError.errEOF) :
    dec.r.fin = GoError.errEOF ∧ nonSpace dec.r.data = false := by
  unfold Decoder.Decode at h
  simp only [herr] at h
  have hr := Decoder.readValue_errEOF dec
  generalize dec.readValue = res at h hr
  obtain ⟨r1, d1⟩ := res
  cases r1 with
  | error e =>
    simp only [Except.error.injEq] at h
    exact hr (by rw [h])
  | ok text => exact absurd h (hu _ _)

theorem DecodeState.saveError_ne_errEOF (d : DecodeState) (err : GoError)
    (h : d.savedError ≠ some GoError.errEOF) (herr : err ≠ GoError.errEOF) :
    (d.saveError err).savedError ≠ some GoError.errEOF := by
  unfold DecodeState.saveError
  split
  · simpa using herr
  · exact h

theorem DecodeState.store_savedError (d : DecodeState) (v : Value) :
    (d.store v).savedError = d.savedError := by
  unfold DecodeState.store
  split <;> rfl

theorem DecodeState.endLiteral_ne_errEOF (d : DecodeState) (i : Nat)
    (h : d.savedError ≠ some GoError.errEOF) :
    (d.endLiteral i).savedError ≠ some GoError.errEOF := by
  have hs : ∀ (e : DecodeState) (err : GoError), e.savedError = d.savedError →
      err ≠ GoError.errEOF → (e.saveError err).savedError ≠ some GoError.errEOF :=
    fun e err he herr => DecodeState.saveError_ne_errEOF e err (he ▸ h) herr
  unfold DecodeState.endLiteral DecodeState.storeKey DecodeState.storeLiteral
  repeat' split
  all_goals first
    | exact h
    | (rw [DecodeState.store_savedError]; exact h)
    | (rw [DecodeState.store_savedError]; exact hs _ _ rfl (by simp))
    | exact hs _ _ rfl (by simp)

theorem DecodeState.step_ne_errEOF (d : DecodeState) (op : ScanOp) (c i : Nat)
    (h : d.savedError ≠ some GoError.errEOF) :
    (d.step op c i).savedError ≠ some GoError.errEOF := by
  have hl := DecodeState.endLiteral_ne_errEOF d i h
  unfold DecodeState.step DecodeState.beginObject DecodeState.beginArray
    DecodeState.endContainer
  repeat' split
  all_goals first
    | exact h
    | exact hl
    | (rw [DecodeState.store_savedError]; exact hl)
    | exact DecodeState.saveError_ne_errEOF _ _ hl (by simp)

theorem decodeLoop_ne_errEOF (text : Bytes) (i : Nat) (scan : Scanner) (d : DecodeState)
    (h : d.savedError ≠ some GoError.errEOF) :
    (decodeLoop text i scan d).savedError ≠ some GoError.errEOF := by
  induction text generalizing i scan d with
  | nil => exact DecodeState.endLiteral_ne_errEOF d i h
  | cons c data ih => exact ih _ _ _ (DecodeState.step_ne_errEOF d _ c i h)

/-- Unmarshalling never reports `io.EOF`. -/
theorem decodeText_ne_errEOF (target : GoType) (text : Bytes) :
    decodeText target text ≠ Except.error GoError.errEOF := by
  have h := decodeLoop_ne_errEOF text 0 {} { target := target } (by simp)
  unfold decodeText errOutOfSync
  dsimp only
  generalize decodeLoop text 0 {} { target := target } = d at h
  split_ifs
  · split
    · rename_i err _ heq
      intro hc
      simp only [Except.error.injEq] at hc
      exact h (hc ▸ heq)
    · simp
    · simp
  · simp

theorem unmarshalEmptyStruct_ne_errEOF (b : Bool) (text : Bytes) :
    unmarshalEmptyStruct b text ≠ Except.error GoError.errEOF := by
  have h := decodeText_ne_errEOF (GoType.emptyStruct b) text
  unfold unmarshalEmptyStruct
  split
  · rename_i err heq
    intro hc
    simp only [Except.error.injEq] at hc
    exact h (hc ▸ heq)
  · simp

/-- Over white space alone the scan of `readValue` runs out of bytes, still at the
beginning of a value. -/
theorem readValueLoop_spaces (buf : Bytes) (scan : Scanner) (n : Nat)
    (hstep : scan.step = Step.stateBeginValue) (hsp : ∀ c ∈ buf, isSpace c = true) :
    ∃ scan', readValueLoop buf scan n = ReadLoop.needMore scan' ∧
      scan'.step = Step.stateBeginValue := by
  induction buf generalizing scan n with
  | nil => exact ⟨scan, rfl, hstep⟩
  | cons c buf ih =>
    have hc : isSpace c = true := hsp c (by simp)
    have hcall : ({ scan with bytes := scan.bytes + 1 } : Scanner).callStep c
        = (ScanOp.scanSkipSpace, { scan with bytes := scan.bytes + 1 }) := by
      simp [Scanner.callStep, hstep, stateBeginValue, hc]
    rw [readValueLoop, hcall]
    exact ih _ _ hstep (fun x hx => hsp x (by simp [hx]))

/-- With nothing but white space left before a regular end of input, `Decode` reports
`io.EOF`. -/
theorem Decoder.Decode_spaces {α : Type} (dec : Decoder) (u : Bool → Bytes → Except GoError α)
    (herr : dec.err = none) (hfin : dec.r.fin = GoError.errEOF)
    (hsp : nonSpace dec.r.data = false) :
    (dec.Decode u).1 = Except.error GoError.errEOF := by
  have hall : ∀ c ∈ dec.r.data, isSpace c = true := by
    intro c hc
    have := hsp
    simp only [nonSpace, List.any_eq_false] at this
    simpa using this c hc
  obtain ⟨scan', hloop, hstep'⟩ := readValueLoop_spaces dec.r.data dec.scan.reset 0 rfl hall
  have hcall : (scan'.callStep 32).1 ≠ ScanOp.scanEnd := by
    have : isSpace 32 = true := by decide
    simp [Scanner.callStep, hstep', stateBeginValue, this]
  simp [Decoder.Decode, herr, Decoder.readValue, hloop, hfin, hcall, hsp]

/-- C2: for a request that passes the media-type check and whose body begins with one
value that the first `Decode` stores in `dst`: the body is that value's text followed by
what the decoder has left; if what is left holds a byte that is not white space, or the
input does not end with `io.EOF`, `decodeJSONBody` fails with status 400 and the message
of `TrailingData`; so it does whenever the second `Decode` answers anything but `io.EOF`;
and it returns nil exactly when the second `Decode` reports `io.EOF`, which is exactly
when only white space is left before the end of input. -/
theorem decodeJSONBody_trailing_data {α : Type} (r : Request)
    (unmarshalDst : Bool → Bytes → Except GoError α) (dst : α) (dec : Decoder)
    (hct : r.contentType = [] ∨
      headerParseValueAndParams r.contentType = ascii "application/json")
    (h1 : (jsonNewDecoder (httpMaxBytesReader r.body 1048576)).DisallowUnknownFields.Decode
      unmarshalDst = (Except.ok dst, dec)) :
    (∃ text, (httpMaxBytesReader r.body 1048576).data = text ++ dec.r.data ∧
      unmarshalDst true text = Except.ok dst ∧
      dec.r.fin = (httpMaxBytesReader r.body 1048576).fin) ∧
    ((nonSpace dec.r.data = true ∨ dec.r.fin ≠ GoError.errEOF) →
      decodeJSONBody r unmarshalDst = Except.error TrailingData) ∧
    ((dec.Decode unmarshalEmptyStruct).1 ≠ Except.error GoError.errEOF →
      decodeJSONBody r unmarshalDst = Except.error TrailingData) ∧
    (decodeJSONBody r unmarshalDst = Except.ok dst ↔
      (dec.Decode unmarshalEmptyStruct).1 = Except.error GoError.errEOF) ∧
    (decodeJSONBody r unmarshalDst = Except.ok dst ↔
      (nonSpace dec.r.data = false ∧ dec.r.fin = GoError.errEOF)) := by
  obtain ⟨text, _, hu, hdata, hfin, herr, _⟩ := Decoder.Decode_ok _ _ _ _ h1
  have hif : ¬ (r.contentType ≠ [] ∧
      headerParseValueAndParams r.contentType ≠ ascii "application/json") := by
    rintro ⟨ha, hb⟩
    rcases hct with h | h
    · exact ha h
    · exact hb h
  have hsecond : (dec.Decode unmarshalEmptyStruct).1 = Except.error GoError.errEOF ↔
      (nonSpace dec.r.data = false ∧ dec.r.fin = GoError.errEOF) :=
    ⟨fun h => (Decoder.Decode_errEOF dec _ herr unmarshalEmptyStruct_ne_errEOF h).symm,
     fun h => Decoder.Decode_spaces dec _ herr h.2 h.1⟩
  have hval : decodeJSONBody r unmarshalDst =
      match (dec.Decode unmarshalEmptyStruct).1 with
      | Except.error GoError.errEOF => Except.ok dst
      | _ => Except.error TrailingData := by
    simp only [decodeJSONBody, hif, if_false, h1]
    rfl
  have hne : (dec.Decode unmarshalEmptyStruct).1 ≠ Except.error GoError.errEOF →
      decodeJSONBody r unmarshalDst = Except.error TrailingData := by
    intro h
    rw [hval]
    split
    · rename_i heq; exact absurd heq h
    · rfl
  have hiff : decodeJSONBody r unmarshalDst = Except.ok dst ↔
      (dec.Decode unmarshalEmptyStruct).1 = Except.error GoError.errEOF := by
    constructor
    · intro h
      by_contra hc
      rw [hne hc] at h
      exact Except.noConfusion h
    · intro h
      rw [hval, h]
  refine ⟨⟨text, ?_, ?_, hfin⟩, ?_, hne, hiff, hiff.trans hsecond⟩
  · exact hdata
  · simpa [jsonNewDecoder, Decoder.DisallowUnknownFields] using hu
  · intro h
    apply hne
    intro h2
    have := hsecond.1 h2
    rcases h with h | h
    · rw [this.1] at h; exact Bool.noConfusion h
    · exact h this.2

/-- C2 at the body of two concatenated values, each of which alone is accepted. -/
theorem decodeJSONBody_trailing_data_witness :
    decodeJSONBody (postRequest "application/json" twoValues) unmarshalMap
      = Except.error TrailingData ∧
    decodeJSONBody (postRequest "application/json" valueA1) unmarshalMap = Except.ok recordA1 ∧
    decodeJSONBody (postRequest "application/json" valueB2) unmarshalMap = Except.ok recordB2 :=
  ⟨(decodeJSONBody_trailing_data (postRequest "application/json" twoValues) unmarshalMap recordA1
    ((jsonNewDecoder (httpMaxBytesReader (postRequest "application/json" twoValues).body
      1048576)).DisallowUnknownFields.Decode unmarshalMap).2
    (Or.inr (by decide)) (by rfl)).2.1 (Or.inl (by rfl)), by rfl, by rfl⟩

theorem mediaType_passes {r : Request}
    (hct : r.contentType = [] ∨
      headerParseValueAndParams r.contentType = ascii "application/json") :
    ¬ (r.contentType ≠ [] ∧
      headerParseValueAndParams r.contentType ≠ ascii "application/json") := by
  rintro ⟨ha, hb⟩
  rcases hct with h | h
  · exact ha h
  · exact hb h

/-- Past the media-type check `decodeJSONBody` is decided by the two calls of `Decode`. -/
theorem decodeJSONBody_eq {α : Type} (r : Request) (u : Bool → Bytes → Except GoError α)
    (hct : r.contentType = [] ∨
      headerParseValueAndParams r.contentType = ascii "application/json") :
    decodeJSONBody r u =
      match (jsonNewDecoder (httpMaxBytesReader r.body 1048576)).DisallowUnknownFields.Decode u with
      | (Except.error err, _) => Except.error (decodeErrorOf err)
      | (Except.ok dst, dec) =>
        match (dec.Decode unmarshalEmptyStruct).1 with
        | Except.error GoError.errEOF => Except.ok dst
        | _ => Except.error TrailingData := by
  simp only [decodeJSONBody, mediaType_passes hct, if_false]
  rfl

theorem Decoder.Decode_complete {α : Type} (dec : Decoder) (u : Bool → Bytes → Except GoError α)
    (n : Nat) (scan : Scanner) (herr : dec.err = none)
    (hloop : readValueLoop dec.r.data dec.scan.reset 0 = ReadLoop.complete n scan) :
    dec.Decode u = (u dec.disallowUnknownFields (dec.r.data.take n),
      { dec with scan := scan, r := { dec.r with data := dec.r.data.drop n } }) := by
  simp [Decoder.Decode, Decoder.readValue, hloop, herr]

theorem Decoder.Decode_failed {α : Type} (dec : Decoder) (u : Bool → Bytes → Except GoError α)
    (scan : Scanner) (herr : dec.err = none)
    (hloop : readValueLoop dec.r.data dec.scan.reset 0 = ReadLoop.failed scan) :
    ∃ offset, (dec.Decode u).1 = Except.error (GoError.syntaxError offset) := by
  have hs := readValueLoop_failed _ _ _ scan
    (by intro e he; simp [Scanner.reset] at he) hloop
  cases hse : scan.err with
  | none => exact ⟨scan.bytes, by simp [Decoder.Decode, Decoder.readValue, hloop, herr, hse]⟩
  | some e =>
    obtain ⟨off, rfl⟩ := hs e hse
    exact ⟨off, by simp [Decoder.Decode, Decoder.readValue, hloop, herr, hse]⟩

theorem Decoder.Decode_needMore {α : Type} (dec : Decoder) (u : Bool → Bytes → Except GoError α)
    (scan : Scanner) (herr : dec.err = none) (hfin : dec.r.fin ≠ GoError.errEOF)
    (hloop : readValueLoop dec.r.data dec.scan.reset 0 = ReadLoop.needMore scan) :
    (dec.Decode u).1 = Except.error dec.r.fin := by
  simp [Decoder.Decode, Decoder.readValue, hloop, herr, hfin]

theorem httpMaxBytesReader_long (body : Body) (n : Nat) (h : n < body.data.length) :
    httpMaxBytesReader body n =
      { data := body.data.take n,
        fin := GoError.errorString (ascii "http: request body too large") } := by
  simp [httpMaxBytesReader, Nat.not_le.2 h]

theorem decodeErrorOf_tooLarge :
    decodeErrorOf (GoError.errorString (ascii "http: request body too large")) = BodyTooLarge := by
  decide

/-- After a first value that decodes, a body over the limit is answered `TrailingData`:
the second `Decode` cannot reach the end of the input. -/
theorem decodeJSONBody_second_of_long {α : Type} (r : Request)
    (u : Bool → Bytes → Except GoError α) (dst : α) (dec : Decoder)
    (hct : r.contentType = [] ∨
      headerParseValueAndParams r.contentType = ascii "application/json")
    (hlen : 1048576 < r.body.data.length)
    (h1 : (jsonNewDecoder (httpMaxBytesReader r.body 1048576)).DisallowUnknownFields.Decode u
      = (Except.ok dst, dec)) :
    decodeJSONBody r u = Except.error TrailingData := by
  obtain ⟨text, _, _, _, hfin, herr, _⟩ := Decoder.Decode_ok _ _ _ _ h1
  rw [httpMaxBytesReader_long _ _ hlen] at hfin
  have h2 : (dec.Decode unmarshalEmptyStruct).1 ≠ Except.error GoError.errEOF := by
    intro h
    have := (Decoder.Decode_errEOF dec _ herr unmarshalEmptyStruct_ne_errEOF h).1
    rw [hfin] at this
    exact GoError.noConfusion this
  rw [decodeJSONBody_eq r u hct, h1]
  simp only

/-- C3 (amended): a request that passes the media-type check and whose body is longer
than 1048576 bytes is never accepted.  It is answered 413 `BodyTooLarge` when the first
1048576 bytes hold neither a complete value nor a syntax error; a syntax error within
them is answered 400 with its position, and a complete value within them that decodes
into `dst` is answered 400 `TrailingData`. -/
theorem decodeJSONBody_over_limit {α : Type} (r : Request)
    (u : Bool → Bytes → Except GoError α)
    (hct : r.contentType = [] ∨
      headerParseValueAndParams r.contentType = ascii "application/json")
    (hlen : 1048576 < r.body.data.length) :
    (∀ scan, readValueLoop (r.body.data.take 1048576) {} 0 = ReadLoop.needMore scan →
      decodeJSONBody r u = Except.error BodyTooLarge) ∧
    (∀ scan, readValueLoop (r.body.data.take 1048576) {} 0 = ReadLoop.failed scan →
      ∃ offset, decodeJSONBody r u = Except.error (decodeErrorOf (GoError.syntaxError offset))) ∧
    (∀ n scan dst, readValueLoop (r.body.data.take 1048576) {} 0 = ReadLoop.complete n scan →
      u true ((r.body.data.take 1048576).take n) = Except.ok dst →
      decodeJSONBody r u = Except.error TrailingData) ∧
    (∀ dst, decodeJSONBody r u ≠ Except.ok dst) := by
  have hlim := httpMaxBytesReader_long r.body 1048576 hlen
  have hfinne : GoError.errorString (ascii "http: request body too large") ≠ GoError.errEOF := by
    intro h; exact GoError.noConfusion h
  have hA : ∀ scan, readValueLoop (r.body.data.take 1048576) {} 0 = ReadLoop.needMore scan →
      decodeJSONBody r u = Except.error BodyTooLarge := by
    intro scan hloop
    have := Decoder.Decode_needMore
      (jsonNewDecoder (httpMaxBytesReader r.body 1048576)).DisallowUnknownFields u scan rfl
      (by rw [hlim]; exact hfinne) (by rw [hlim]; exact hloop)
    rw [decodeJSONBody_eq r u hct]
    generalize (jsonNewDecoder (httpMaxBytesReader r.body 1048576)).DisallowUnknownFields.Decode u
      = res at this
    obtain ⟨r1, d1⟩ := res
    simp only at this
    subst this
    simp only [hlim, jsonNewDecoder, Decoder.DisallowUnknownFields, decodeErrorOf_tooLarge]
  have hB : ∀ scan, readValueLoop (r.body.data.take 1048576) {} 0 = ReadLoop.failed scan →
      ∃ offset, decodeJSONBody r u
        = Except.error (decodeErrorOf (GoError.syntaxError offset)) := by
    intro scan hloop
    obtain ⟨off, hoff⟩ := Decoder.Decode_failed
      (jsonNewDecoder (httpMaxBytesReader r.body 1048576)).DisallowUnknownFields u scan rfl
      (by rw [hlim]; exact hloop)
    refine ⟨off, ?_⟩
    rw [decodeJSONBody_eq r u hct]
    generalize (jsonNewDecoder (httpMaxBytesReader r.body 1048576)).DisallowUnknownFields.Decode u
      = res at hoff
    obtain ⟨r1, d1⟩ := res
    simp only at hoff
    subst hoff
    rfl
  have hC : ∀ n scan dst,
      readValueLoop (r.body.data.take 1048576) {} 0 = ReadLoop.complete n scan →
      u true ((r.body.data.take 1048576).take n) = Except.ok dst →
      decodeJSONBody r u = Except.error TrailingData := by
    intro n scan dst hloop hu
    have := Decoder.Decode_complete
      (jsonNewDecoder (httpMaxBytesReader r.body 1048576)).DisallowUnknownFields u n scan rfl
      (by rw [hlim]; exact hloop)
    have hu' : u (jsonNewDecoder (httpMaxBytesReader r.body 1048576)).DisallowUnknownFields.disallowUnknownFields
        (List.take n (jsonNewDecoder (httpMaxBytesReader r.body 1048576)).DisallowUnknownFields.r.data)
        = Except.ok dst := by
      simp only [hlim, jsonNewDecoder, Decoder.DisallowUnknownFields, hu]
    rw [hu'] at this
    exact decodeJSONBody_second_of_long r u dst _ hct hlen this
  refine ⟨hA, hB, hC, ?_⟩
  intro dst hok
  rw [decodeJSONBody_eq r u hct] at hok
  generalize hres :
    (jsonNewDecoder (httpMaxBytesReader r.body 1048576)).DisallowUnknownFields.Decode u = res at hok
  obtain ⟨r1, d1⟩ := res
  cases r1 with
  | error e => exact Except.noConfusion hok
  | ok v =>
    have := decodeJSONBody_second_of_long r u v d1 hct hlen hres
    rw [decodeJSONBody_eq r u hct, hres] at this
    rw [this] at hok
    exact Except.noConfusion hok

/-- C3 (amended) at a body of 1048577 spaces. -/
theorem decodeJSONBody_over_limit_witness :
    decodeJSONBody { contentType := [], rawQuery := [], body := { data := spaces1048577 } }
      unmarshalMap = Except.error BodyTooLarge :=
  (readValueLoop_spaces (spaces1048577.take 1048576) {} 0 rfl
    (fun c hc => by
      have := List.eq_of_mem_replicate (List.mem_of_mem_take hc)
      rw [this]; decide)).elim
    (fun scan h =>
      (decodeJSONBody_over_limit
        { contentType := [], rawQuery := [], body := { data := spaces1048577 } } unmarshalMap
        (Or.inl rfl)
        (by show 1048576 < (List.replicate 1048577 32).length
            rw [List.length_replicate]; norm_num)).1 scan h.1)

theorem take_two_more {α : Type} (n : Nat) (a b : α) (l : List α) :
    List.take (n + 2) (a :: b :: l) = a :: b :: List.take n l := rfl

/-- An empty object followed by anything that takes the body over the limit is answered
`TrailingData`. -/
theorem decodeJSONBody_emptyObject_long (pad : Bytes) (fin : GoError)
    (hlen : 1048576 < (('\x7b'.toNat :: '\x7d'.toNat :: pad) : Bytes).length) :
    decodeJSONBody
      { contentType := [], rawQuery := [],
        body := { data := '\x7b'.toNat :: '\x7d'.toNat :: pad, fin := fin } } unmarshalMap
      = Except.error TrailingData := by
  have hlim := httpMaxBytesReader_long
    { data := '\x7b'.toNat :: '\x7d'.toNat :: pad, fin := fin } 1048576 hlen
  have htake : List.take 1048576 ('\x7b'.toNat :: '\x7d'.toNat :: pad)
      = '\x7b'.toNat :: '\x7d'.toNat :: List.take 1048574 pad := by
    rw [show (1048576 : Nat) = 1048574 + 2 from by norm_num, take_two_more]
  simp only [htake] at hlim
  have hloop : ∃ scan, readValueLoop ('\x7b'.toNat :: '\x7d'.toNat :: List.take 1048574 pad)
      ({} : Scanner).reset 0 = ReadLoop.complete 2 scan := ⟨_, rfl⟩
  obtain ⟨scan, hloop⟩ := hloop
  have hdec := Decoder.Decode_complete
    (jsonNewDecoder (httpMaxBytesReader
      { data := '\x7b'.toNat :: '\x7d'.toNat :: pad, fin := fin } 1048576)).DisallowUnknownFields
    unmarshalMap 2 scan rfl (by rw [hlim]; exact hloop)
  have hu : unmarshalMap (jsonNewDecoder (httpMaxBytesReader
      { data := '\x7b'.toNat :: '\x7d'.toNat :: pad, fin := fin }
        1048576)).DisallowUnknownFields.disallowUnknownFields
      (List.take 2 (jsonNewDecoder (httpMaxBytesReader
        { data := '\x7b'.toNat :: '\x7d'.toNat :: pad, fin := fin }
          1048576)).DisallowUnknownFields.r.data) = Except.ok [] := by
    rw [hlim]; rfl
  rw [hu] at hdec
  exact decodeJSONBody_second_of_long _ unmarshalMap [] _ (Or.inl rfl) hlen hdec

/-- C3 fails as stated: the body `{}` followed by 1048576 spaces is longer than the
limit, and `decodeJSONBody` answers it 400 `TrailingData`, not 413. -/
theorem decodeJSONBody_over_limit_counterexample :
    1048576 < emptyObjectPadded.length ∧
    decodeJSONBody { contentType := [], rawQuery := [], body := { data := emptyObjectPadded } }
      unmarshalMap = Except.error TrailingData ∧
    TrailingData ≠ BodyTooLarge := by
  have hlen : 1048576 < emptyObjectPadded.length := by
    show 1048576 < (123 :: 125 :: List.replicate 1048576 32).length
    rw [List.length_cons, List.length_cons, List.length_replicate]; norm_num
  exact ⟨hlen, decodeJSONBody_emptyObject_long _ _ hlen, by decide⟩

/-- The switch on the error of the first `Decode`: status 400 with one of five messages,
status 413, or the error handed on when it is unrecognised. -/
theorem decodeErrorOf_cases (err : GoError) :
    (∃ msg, decodeErrorOf err = DecodeError.malformed { status := 400, msg := msg } ∧
      msg.format ∈ badRequestFormats) ∨
    (decodeErrorOf err = BodyTooLarge ∧
      err = GoError.errorString (ascii "http: request body too large")) ∨
    (decodeErrorOf err = DecodeError.plain err ∧ err.Unrecognised) := by
  cases err with
  | syntaxError offset => exact Or.inl ⟨_, rfl, by simp [badRequestFormats]⟩
  | errUnexpectedEOF => exact Or.inl ⟨_, rfl, by simp [badRequestFormats]⟩
  | unmarshalTypeError field offset => exact Or.inl ⟨_, rfl, by simp [badRequestFormats]⟩
  | unknownField key => exact Or.inl ⟨_, rfl, by simp [badRequestFormats]⟩
  | errEOF => exact Or.inl ⟨_, rfl, by simp [badRequestFormats]⟩
  | errorString text =>
    by_cases h1 : stringsHasPrefix text (ascii "json: unknown field ") = true
    · exact Or.inl ⟨Message.mk "Request body contains unknown field %s"
          [FmtArg.str (stringsTrimPrefix text (ascii "json: unknown field "))],
        by simp [decodeErrorOf, h1, StatusBadRequest], by simp [badRequestFormats]⟩
    · by_cases h2 : text = ascii "http: request body too large"
      · refine Or.inr (Or.inl ⟨?_, by rw [h2]⟩)
        rw [h2]
        exact decodeErrorOf_tooLarge
      · refine Or.inr (Or.inr ⟨?_, text, rfl, by simpa using h1, h2⟩)
        simp only [decodeErrorOf, h1, h2, if_false]
        simp

/-- The shapes of the result of `decodeJSONBody`: nil, one of the three kinds of
`malformedRequest`, or an unrecognised error of the first `Decode` handed on. -/
theorem decodeJSONBody_result_cases {α : Type} (r : Request)
    (u : Bool → Bytes → Except GoError α) :
    ((∃ dst, decodeJSONBody r u = Except.ok dst) ∨
     decodeJSONBody r u = Except.error UnsupportedMediaType ∨
     decodeJSONBody r u = Except.error BodyTooLarge ∨
     (∃ msg, decodeJSONBody r u
        = Except.error (DecodeError.malformed { status := 400, msg := msg }) ∧
        msg.format ∈ badRequestFormats) ∨
     (∃ err, decodeJSONBody r u = Except.error (DecodeError.plain err) ∧ err.Unrecognised ∧
        ((jsonNewDecoder (httpMaxBytesReader r.body 1048576)).DisallowUnknownFields.Decode u).1
          = Except.error err)) ∧
    (decodeJSONBody r u = Except.error UnsupportedMediaType ↔
      (r.contentType ≠ [] ∧
        headerParseValueAndParams r.contentType ≠ ascii "application/json")) := by
  by_cases hct : r.contentType ≠ [] ∧
      headerParseValueAndParams r.contentType ≠ ascii "application/json"
  · have h415 : decodeJSONBody r u = Except.error UnsupportedMediaType := by
      unfold decodeJSONBody
      rw [if_pos hct]
      rfl
    exact ⟨Or.inr (Or.inl h415), fun _ => hct, fun _ => h415⟩
  · have hpass : r.contentType = [] ∨
        headerParseValueAndParams r.contentType = ascii "application/json" := by
      by_cases h : r.contentType = []
      · exact Or.inl h
      · right
        by_contra h2
        exact hct ⟨h, h2⟩
    have heq := decodeJSONBody_eq r u hpass
    generalize hres :
      (jsonNewDecoder (httpMaxBytesReader r.body 1048576)).DisallowUnknownFields.Decode u = res
      at heq
    obtain ⟨r1, d1⟩ := res
    have hmain : (∃ dst, decodeJSONBody r u = Except.ok dst) ∨
        decodeJSONBody r u = Except.error BodyTooLarge ∨
        (∃ msg, decodeJSONBody r u
          = Except.error (DecodeError.malformed { status := 400, msg := msg }) ∧
          msg.format ∈ badRequestFormats) ∨
        (∃ err, decodeJSONBody r u = Except.error (DecodeError.plain err) ∧ err.Unrecognised ∧
          r1 = Except.error err) := by
      cases r1 with
      | error e =>
        simp only at heq
        rcases decodeErrorOf_cases e with ⟨msg, h1, h2⟩ | ⟨h1, _⟩ | ⟨h1, h2⟩
        · exact Or.inr (Or.inr (Or.inl ⟨msg, by rw [heq, h1], h2⟩))
        · exact Or.inr (Or.inl (by rw [heq, h1]))
        · exact Or.inr (Or.inr (Or.inr ⟨e, by rw [heq, h1], h2, rfl⟩))
      | ok dst =>
        simp only at heq
        by_cases h2 : (d1.Decode unmarshalEmptyStruct).1 = Except.error GoError.errEOF
        · exact Or.inl ⟨dst, by rw [heq, h2]⟩
        · refine Or.inr (Or.inr (Or.inl
            ⟨Message.mk "Request body must only contain a single JSON object" [], ?_, ?_⟩))
          · rw [heq]
            simp only
            rfl
          · simp [badRequestFormats]
    refine ⟨?_, fun h => ?_, fun h => absurd h hct⟩
    · rcases hmain with h | h | h | h
      · exact Or.inl h
      · exact Or.inr (Or.inr (Or.inl h))
      · exact Or.inr (Or.inr (Or.inr (Or.inl h)))
      · exact Or.inr (Or.inr (Or.inr (Or.inr h)))
    · exfalso
      rcases hmain with ⟨dst, h'⟩ | h' | ⟨msg, h', _⟩ | ⟨err, h', _⟩ <;> rw [h'] at h
      · exact Except.noConfusion h
      · simp [BodyTooLarge, UnsupportedMediaType] at h
      · simp [UnsupportedMediaType] at h
      · simp [UnsupportedMediaType] at h

theorem decodeJSONBody_of_first_error {α : Type} (r : Request)
    (u : Bool → Bytes → Except GoError α) (hct : ¬ MediaTypeRejected r) (err : GoError)
    (h : (firstDecode r u).1 = Except.error err) :
    decodeJSONBody r u = Except.error (decodeErrorOf err) := by
  have hpass : r.contentType = [] ∨
      headerParseValueAndParams r.contentType = ascii "application/json" := by
    by_cases h0 : r.contentType = []
    · exact Or.inl h0
    · right
      by_contra h2
      exact hct ⟨h0, h2⟩
  rw [decodeJSONBody_eq r u hpass]
  unfold firstDecode at h
  generalize (jsonNewDecoder (httpMaxBytesReader r.body 1048576)).DisallowUnknownFields.Decode u
    = res at h
  obtain ⟨r1, d1⟩ := res
  simp only at h
  subst h
  rfl

theorem decodeJSONBody_of_first_ok {α : Type} (r : Request)
    (u : Bool → Bytes → Except GoError α) (hct : ¬ MediaTypeRejected r) (dst : α)
    (dec : Decoder) (h : firstDecode r u = (Except.ok dst, dec)) :
    ((dec.Decode unmarshalEmptyStruct).1 = Except.error GoError.errEOF →
      decodeJSONBody r u = Except.ok dst) ∧
    ((dec.Decode unmarshalEmptyStruct).1 ≠ Except.error GoError.errEOF →
      decodeJSONBody r u = Except.error TrailingData) := by
  have hpass : r.contentType = [] ∨
      headerParseValueAndParams r.contentType = ascii "application/json" := by
    by_cases h0 : r.contentType = []
    · exact Or.inl h0
    · right
      by_contra h2
      exact hct ⟨h0, h2⟩
  unfold firstDecode at h
  constructor
  · intro h2
    rw [decodeJSONBody_eq r u hpass, h]
    simp only [h2]
  · intro h2
    rw [decodeJSONBody_eq r u hpass, h]
    simp only

/-- C8 (amended): `decodeJSONBody` answers a rejected media type, and nothing else, with
status 415.  Past that check the error of the first `Decode` decides: a syntax error,
an unexpected end of input, a type mismatch, an unknown field and an empty body are each
returned as a `malformedRequest` of status 400 with the message of their kind, the error
"http: request body too large" as a `malformedRequest` of status 413, and an error of no
such kind is handed on unchanged, not as a `malformedRequest`; after a first value,
trailing data is a `malformedRequest` of status 400 and otherwise nil is returned.  No
other result occurs. -/
theorem decodeJSONBody_error_taxonomy {α : Type} (r : Request)
    (u : Bool → Bytes → Except GoError α) :
    (decodeJSONBody r u = Except.error (DecodeError.malformed
        { status := 415, msg := { format := "Content-Type header is not application/json" } })
      ↔ MediaTypeRejected r) ∧
    (¬ MediaTypeRejected r →
      (∀ offset, (firstDecode r u).1 = Except.error (GoError.syntaxError offset) →
        decodeJSONBody r u = Except.error (DecodeError.malformed
          { status := 400,
            msg := { format := "Request body contains badly-formed JSON (at position %d)",
                     args := [FmtArg.int offset] } })) ∧
      ((firstDecode r u).1 = Except.error GoError.errUnexpectedEOF →
        decodeJSONBody r u = Except.error (DecodeError.malformed
          { status := 400, msg := { format := "Request body contains badly-formed JSON" } })) ∧
      (∀ field offset,
        (firstDecode r u).1 = Except.error (GoError.unmarshalTypeError field offset) →
        decodeJSONBody r u = Except.error (DecodeError.malformed
          { status := 400,
            msg := { format :=
                       "Request body contains an invalid value for the %q field (at position %d)",
                     args := [FmtArg.quoted field, FmtArg.int offset] } })) ∧
      (∀ key, (firstDecode r u).1 = Except.error (GoError.unknownField key) →
        decodeJSONBody r u = Except.error (DecodeError.malformed
          { status := 400,
            msg := { format := "Request body contains unknown field %s",
                     args := [FmtArg.quoted key] } })) ∧
      (∀ text, stringsHasPrefix text (ascii "json: unknown field ") = true →
        (firstDecode r u).1 = Except.error (GoError.errorString text) →
        decodeJSONBody r u = Except.error (DecodeError.malformed
          { status := 400,
            msg := { format := "Request body contains unknown field %s",
                     args := [FmtArg.str
                       (stringsTrimPrefix text (ascii "json: unknown field "))] } })) ∧
      ((firstDecode r u).1 = Except.error GoError.errEOF →
        decodeJSONBody r u = Except.error (DecodeError.malformed
          { status := 400, msg := { format := "Request body must not be empty" } })) ∧
      ((firstDecode r u).1
          = Except.error (GoError.errorString (ascii "http: request body too large")) →
        decodeJSONBody r u = Except.error (DecodeError.malformed
          { status := 413, msg := { format := "Request body must not be larger than 1MB" } })) ∧
      (∀ err, err.Unrecognised → (firstDecode r u).1 = Except.error err →
        decodeJSONBody r u = Except.error (DecodeError.plain err)) ∧
      (∀ dst dec, firstDecode r u = (Except.ok dst, dec) →
        ((dec.Decode unmarshalEmptyStruct).1 ≠ Except.error GoError.errEOF →
          decodeJSONBody r u = Except.error (DecodeError.malformed
            { status := 400,
              msg := { format := "Request body must only contain a single JSON object" } })) ∧
        ((dec.Decode unmarshalEmptyStruct).1 = Except.error GoError.errEOF →
          decodeJSONBody r u = Except.ok dst))) ∧
    ((∃ dst, decodeJSONBody r u = Except.ok dst) ∨
     decodeJSONBody r u = Except.error UnsupportedMediaType ∨
     decodeJSONBody r u = Except.error BodyTooLarge ∨
     (∃ msg, decodeJSONBody r u
        = Except.error (DecodeError.malformed { status := 400, msg := msg }) ∧
        msg.format ∈ badRequestFormats) ∨
     (∃ err, decodeJSONBody r u = Except.error (DecodeError.plain err) ∧ err.Unrecognised ∧
        (firstDecode r u).1 = Except.error err)) := by
  refine ⟨(decodeJSONBody_result_cases r u).2, fun hct => ?_, (decodeJSONBody_result_cases r u).1⟩
  have he := decodeJSONBody_of_first_error r u hct
  refine ⟨fun offset h => he _ h, fun h => he _ h, fun field offset h => he _ h,
    fun key h => he _ h, fun text hp h => ?_, fun h => he _ h, fun h => ?_,
    fun err hu h => ?_, fun dst dec h => ?_⟩
  · rw [he _ h]
    simp [decodeErrorOf, hp, StatusBadRequest]
  · rw [he _ h, decodeErrorOf_tooLarge]
    rfl
  · rw [he _ h]
    obtain ⟨text, rfl, h1, h2⟩ := hu
    simp [decodeErrorOf, h1, h2]
  · have := decodeJSONBody_of_first_ok r u hct dst dec h
    exact ⟨this.2, this.1⟩

/-- The first `Decode` of a body of 1048577 spaces fails with the too-large error. -/
theorem firstDecode_spaces_tooLarge :
    (firstDecode { contentType := [], rawQuery := [], body := { data := spaces1048577 } }
      unmarshalMap).1
      = Except.error (GoError.errorString (ascii "http: request body too large")) := by
  have hlen : 1048576 < spaces1048577.length := by
    show 1048576 < (List.replicate 1048577 32).length
    rw [List.length_replicate]; norm_num
  have hlim := httpMaxBytesReader_long { data := spaces1048577 } 1048576 hlen
  obtain ⟨scan, hloop, _⟩ := readValueLoop_spaces (spaces1048577.take 1048576) {} 0 rfl
    (fun c hc => by
      have := List.eq_of_mem_replicate (List.mem_of_mem_take hc)
      rw [this]; decide)
  have := Decoder.Decode_needMore
    (jsonNewDecoder (httpMaxBytesReader { data := spaces1048577 } 1048576)).DisallowUnknownFields
    unmarshalMap scan rfl (by rw [hlim]; intro h; exact GoError.noConfusion h)
    (by rw [hlim]; exact hloop)
  unfold firstDecode
  rw [this, hlim]
  rfl

/-- C8 (amended) at a body with a syntax error, at the empty body, at a value of the
wrong type and at an unknown field, each answered 400 with the message of its kind, and
at a body of 1048577 spaces, answered 413. -/
theorem decodeJSONBody_error_taxonomy_witness :
    decodeJSONBody (postRequest "application/json" (ascii "\x7b\"a\":1,\x7d")) unmarshalMap
      = Except.error (DecodeError.malformed
          { status := 400,
            msg := { format := "Request body contains badly-formed JSON (at position %d)",
                     args := [FmtArg.int 8] } }) ∧
    decodeJSONBody (postRequest "application/json" []) unmarshalMap
      = Except.error (DecodeError.malformed
          { status := 400, msg := { format := "Request body must not be empty" } }) ∧
    decodeJSONBody (postRequest "application/json" (ascii "[1]")) unmarshalMap
      = Except.error (DecodeError.malformed
          { status := 400,
            msg := { format :=
                       "Request body contains an invalid value for the %q field (at position %d)",
                     args := [FmtArg.quoted [], FmtArg.int 1] } }) ∧
    decodeJSONBody (postRequest "application/json" valueB2) unmarshalEmptyStruct
      = Except.error (DecodeError.malformed
          { status := 400,
            msg := { format := "Request body contains unknown field %s",
                     args := [FmtArg.quoted (ascii "b")] } }) ∧
    decodeJSONBody { contentType := [], rawQuery := [], body := { data := spaces1048577 } }
      unmarshalMap
      = Except.error (DecodeError.malformed
          { status := 413, msg := { format := "Request body must not be larger than 1MB" } }) :=
  ⟨((decodeJSONBody_error_taxonomy (postRequest "application/json" (ascii "\x7b\"a\":1,\x7d"))
      unmarshalMap).2.1 (fun h => h.2 (by decide))).1 8 (by rfl),
   ((decodeJSONBody_error_taxonomy (postRequest "application/json" [])
      unmarshalMap).2.1 (fun h => h.2 (by decide))).2.2.2.2.2.1 (by rfl),
   ((decodeJSONBody_error_taxonomy (postRequest "application/json" (ascii "[1]"))
      unmarshalMap).2.1 (fun h => h.2 (by decide))).2.2.1 [] 1 (by rfl),
   ((decodeJSONBody_error_taxonomy (postRequest "application/json" valueB2)
      unmarshalEmptyStruct).2.1 (fun h => h.2 (by decide))).2.2.2.1 (ascii "b") (by rfl),
   ((decodeJSONBody_error_taxonomy
      { contentType := [], rawQuery := [], body := { data := spaces1048577 } }
      unmarshalMap).2.1 (fun h => h.1 rfl)).2.2.2.2.2.2.1 firstDecode_spaces_tooLarge⟩

/-- C8 fails as stated: when reading the body breaks off with a connection error,
`decodeJSONBody` returns that error itself, which is no `malformedRequest`. -/
theorem decodeJSONBody_error_taxonomy_counterexample :
    decodeJSONBody resetRequest unmarshalMap
      = Except.error (DecodeError.plain
          (GoError.errorString (ascii "read: connection reset by peer"))) ∧
    ∀ mr : malformedRequest,
      decodeJSONBody resetRequest unmarshalMap ≠ Except.error (DecodeError.malformed mr) := by
  have h : decodeJSONBody resetRequest unmarshalMap
      = Except.error (DecodeError.plain
          (GoError.errorString (ascii "read: connection reset by peer"))) := by rfl
  refine ⟨h, fun mr hmr => ?_⟩
  rw [h] at hmr
  simp at hmr

/-! ## The media type -/

theorem expectTokenSlash_fst (s : Bytes) : (expectTokenSlash s).1 = s.takeWhile isMediaTypeByte :=
  rfl

theorem takeWhile_append_of_head {p : Nat → Bool} (tok rest : Bytes)
    (htok : ∀ b ∈ tok, p b = true) (hrest : ∀ b, rest.head? = some b → p b = false) :
    (tok ++ rest).takeWhile p = tok := by
  induction tok with
  | nil =>
    cases rest with
    | nil => rfl
    | cons b bs => simp [List.takeWhile, hrest b rfl]
  | cons a as ih =>
    have ha : p a = true := htok a (by simp)
    simp [List.takeWhile, ha, ih (fun b hb => htok b (by simp [hb]))]

theorem head_dropWhile {p : Nat → Bool} (s : Bytes) (b : Nat)
    (h : (s.dropWhile p).head? = some b) : p b = false := by
  induction s with
  | nil => simp at h
  | cons a as ih =>
    by_cases ha : p a = true
    · simp only [List.dropWhile, ha] at h
      exact ih h
    · simp only [List.dropWhile, ha] at h
      simp only [List.head?_cons, Option.some.injEq] at h
      subst h
      simpa using ha

theorem lower_small :
    ∀ b, b < 128 →
      (if 'A'.toNat ≤ b ∧ b ≤ 'Z'.toNat then b + ('a'.toNat - 'A'.toNat) else b)
        ∈ ascii "application/json" → isMediaTypeByte b = true := by
  decide

theorem isMediaTypeByte_of_lower (b : Nat)
    (h : (if 'A'.toNat ≤ b ∧ b ≤ 'Z'.toNat then b + ('a'.toNat - 'A'.toNat) else b)
      ∈ ascii "application/json") : isMediaTypeByte b = true := by
  by_cases hb : b < 128
  · exact lower_small b hb h
  · have hnot : ¬ ('A'.toNat ≤ b ∧ b ≤ 'Z'.toNat) := by
      rintro ⟨_, h2⟩
      have : ('Z'.toNat : Nat) = 90 := rfl
      omega
    rw [if_neg hnot] at h
    have hall : ∀ c ∈ ascii "application/json", c < 128 := by decide
    exact absurd (hall b h) hb

/-- The value `header.ParseValueAndParams` finds is `application/json` exactly for the
headers whose base media type is `application/json`. -/
theorem headerParseValueAndParams_eq_json_iff (header : Bytes) :
    headerParseValueAndParams header = ascii "application/json" ↔ IsJSONMediaType header := by
  unfold headerParseValueAndParams
  simp only [expectTokenSlash_fst]
  constructor
  · intro h
    refine ⟨header.takeWhile isMediaTypeByte, header.dropWhile isMediaTypeByte,
      (List.takeWhile_append_dropWhile _ _).symm, ?_, fun b hb => head_dropWhile _ b hb⟩
    by_cases hnil : header.takeWhile isMediaTypeByte = []
    · rw [if_pos hnil, hnil] at h
      exact absurd h (by decide)
    · rw [if_neg hnil] at h
      exact h
  · rintro ⟨tok, rest, rfl, hlow, hrest⟩
    have htok : ∀ b ∈ tok, isMediaTypeByte b = true := by
      intro b hb
      apply isMediaTypeByte_of_lower
      rw [← hlow]
      exact List.mem_map.2 ⟨b, hb, rfl⟩
    rw [takeWhile_append_of_head tok rest htok hrest]
    have hne : tok ≠ [] := by
      rintro rfl
      exact absurd hlow (by decide)
    rw [if_neg hne]
    exact hlow

theorem isJSONMediaType_plain : IsJSONMediaType (ascii "application/json") :=
  ⟨ascii "application/json", [], by simp, by decide, by simp⟩

theorem isJSONMediaType_params (params : Bytes) :
    IsJSONMediaType (ascii "application/json" ++ ';'.toNat :: params) :=
  ⟨ascii "application/json", ';'.toNat :: params, rfl, by decide, by
    intro b hb
    simp only [List.head?_cons, Option.some.injEq] at hb
    subst hb
    decide⟩

theorem not_isJSONMediaType_textPlain : ¬ IsJSONMediaType (ascii "text/plain") := by
  rw [← headerParseValueAndParams_eq_json_iff]
  decide

/-- C9: the value `header.ParseValueAndParams` finds in a header is `application/json`
exactly when the base media type of the header is `application/json` (it begins with
`application/json` in any letter case, followed by nothing or by a byte that ends the
media type).  When the Content-Type header is not empty and its base media type is not
`application/json`, `decodeJSONBody` fails with status 415 for every body; when the
header is empty or its base media type is `application/json`, the result is the one for
the same body with no header.  `application/json` with or without parameters has this
base media type, `text/plain` has not. -/
theorem decodeJSONBody_media_type {α : Type} (r : Request)
    (u : Bool → Bytes → Except GoError α) :
    (headerParseValueAndParams r.contentType = ascii "application/json" ↔
      IsJSONMediaType r.contentType) ∧
    (r.contentType ≠ [] → ¬ IsJSONMediaType r.contentType →
      ∀ body : Body, decodeJSONBody { r with body := body } u
        = Except.error UnsupportedMediaType) ∧
    (r.contentType = [] ∨ IsJSONMediaType r.contentType →
      decodeJSONBody r u = decodeJSONBody { r with contentType := [] } u) ∧
    IsJSONMediaType (ascii "application/json") ∧
    (∀ params : Bytes, IsJSONMediaType (ascii "application/json" ++ ';'.toNat :: params)) ∧
    ¬ IsJSONMediaType (ascii "text/plain") := by
  refine ⟨headerParseValueAndParams_eq_json_iff _, ?_, ?_, isJSONMediaType_plain,
    isJSONMediaType_params, not_isJSONMediaType_textPlain⟩
  · intro hne hnot body
    have hct : r.contentType ≠ [] ∧
        headerParseValueAndParams r.contentType ≠ ascii "application/json" :=
      ⟨hne, fun h => hnot ((headerParseValueAndParams_eq_json_iff _).1 h)⟩
    unfold decodeJSONBody
    rw [if_pos hct]
    rfl
  · intro hpass
    have hct : ¬ (r.contentType ≠ [] ∧
        headerParseValueAndParams r.contentType ≠ ascii "application/json") := by
      rintro ⟨ha, hb⟩
      rcases hpass with h | h
      · exact ha h
      · exact hb ((headerParseValueAndParams_eq_json_iff _).2 h)
    unfold decodeJSONBody
    rw [if_neg hct, if_neg (by simp)]

/-- C9 at the header `text/plain`: status 415 for the two-value body and for the empty
body, while the header `application/json; charset=utf-8` lets the body decide. -/
theorem decodeJSONBody_media_type_witness :
    decodeJSONBody textPlainRequest unmarshalMap = Except.error UnsupportedMediaType ∧
    decodeJSONBody { textPlainRequest with body := { data := [] } } unmarshalMap
      = Except.error UnsupportedMediaType ∧
    decodeJSONBody (postRequest "application/json; charset=utf-8" valueA1) unmarshalMap
      = Except.ok recordA1 :=
  ⟨(decodeJSONBody_media_type textPlainRequest unmarshalMap).2.1 (by decide)
      (decodeJSONBody_media_type textPlainRequest unmarshalMap).2.2.2.2.2 textPlainRequest.body,
   (decodeJSONBody_media_type textPlainRequest unmarshalMap).2.1 (by decide)
      (decodeJSONBody_media_type textPlainRequest unmarshalMap).2.2.2.2.2 { data := [] },
   ((decodeJSONBody_media_type (postRequest "application/json; charset=utf-8" valueA1)
      unmarshalMap).2.2.1
      (Or.inr (isJSONMediaType_params (ascii " charset=utf-8")))).trans (by rfl)⟩

/-! ## The handlers -/

theorem logSingle_loop (ary : List Record) (started : List Goroutine) :
    ary.foldl (fun started v => started ++ logSingle v) started
      = started ++ ary.map Goroutine.logOne := by
  induction ary generalizing started with
  | nil => simp
  | cons m ms ih =>
    rw [List.foldl_cons, ih]
    simp [logSingle]

/-- C5: for a request to `logMulti` with content type `application/json` or
`text/plain`: when the body decodes to a slice of `N` records, one goroutine `logOne` is
started for each record in turn, `N` in all, the multiset of records handed to `logOne`
is that of the slice, and the answer is 200 "ok"; when the body does not decode, nothing
is started and the answer is 400. -/
theorem logMulti_dispatches_each (r : Request)
    (hct : r.contentType = ascii "application/json" ∨ r.contentType = ascii "text/plain") :
    (∀ (N : Nat) (ary : List Record),
      ((jsonNewDecoder r.body).Decode unmarshalMapSlice).1 = Except.ok ary → ary.length = N →
      logMulti r = (HandlerResult.string 200 "ok", ary.map Goroutine.logOne) ∧
      (logMulti r).2.length = N ∧
      (((logMulti r).2.map Goroutine.arg : List Record) : Multiset Record)
        = (ary : Multiset Record)) ∧
    (∀ err, ((jsonNewDecoder r.body).Decode unmarshalMapSlice).1 = Except.error err →
      logMulti r = (HandlerResult.httpError 400 "Unable to parse body as array of JSON", []) ∧
      (logMulti r).1.status = 400) := by
  refine ⟨fun N ary h hN => ?_, fun err h => ?_⟩
  · have hl : logMulti r = (HandlerResult.string 200 "ok", ary.map Goroutine.logOne) := by
      unfold logMulti
      rw [if_pos hct, h]
      simp only [logSingle_loop, List.nil_append]
      rfl
    refine ⟨hl, by rw [hl]; simpa using hN, ?_⟩
    rw [hl]
    congr 1
    simp only [List.map_map]
    conv_rhs => rw [← List.map_id ary]
    congr 1
  · have hl : logMulti r
        = (HandlerResult.httpError 400 "Unable to parse body as array of JSON", []) := by
      unfold logMulti
      rw [if_pos hct, h]
      rfl
    exact ⟨hl, by rw [hl]; rfl⟩

/-- C5 at an array of two objects, at an array whose number is beyond the `float64`
range and at a single object, neither of which decodes. -/
theorem logMulti_dispatches_each_witness :
    logMulti (postRequest "application/json" twoObjects)
      = (HandlerResult.string 200 "ok", [Goroutine.logOne recordA1, Goroutine.logOne recordB2]) ∧
    logMulti (postRequest "application/json" hugeNumberArray)
      = (HandlerResult.httpError 400 "Unable to parse body as array of JSON", []) ∧
    logMulti (postRequest "application/json" valueA1)
      = (HandlerResult.httpError 400 "Unable to parse body as array of JSON", []) :=
  ⟨((logMulti_dispatches_each (postRequest "application/json" twoObjects) (Or.inl rfl)).1
    2 [recordA1, recordB2] (by rfl) rfl).1,
   ((logMulti_dispatches_each (postRequest "application/json" hugeNumberArray) (Or.inl rfl)).2
    (GoError.unmarshalTypeError [] 12) (by rfl)).1,
   ((logMulti_dispatches_each (postRequest "application/json" valueA1) (Or.inl rfl)).2
    (GoError.unmarshalTypeError [] 1) (by rfl)).1⟩

theorem httpMaxBytesReader_short (body : Body) (n : Nat) (h : body.data.length ≤ n) :
    httpMaxBytesReader body n = body := by
  simp [httpMaxBytesReader, h]

/-- The value `Decode` returns does not depend on the option `DisallowUnknownFields` when
unmarshalling does not. -/
theorem Decoder.Decode_flag {α : Type} (dec : Decoder) (u : Bool → Bytes → Except GoError α)
    (hu : ∀ b b' text, u b text = u b' text) :
    (dec.DisallowUnknownFields.Decode u).1 = (dec.Decode u).1 := by
  unfold Decoder.Decode Decoder.DisallowUnknownFields
  cases herr : dec.err with
  | some e => simp [herr]
  | none =>
    simp only [herr]
    unfold Decoder.readValue
    simp only
    generalize readValueLoop dec.r.data dec.scan.reset 0 = res
    rcases res with ⟨n, scan⟩ | ⟨scan⟩ | ⟨scan⟩
    · simp only
      exact hu _ _ _
    · rfl
    · simp only
      split_ifs <;> first | rfl | exact hu _ _ _

/-- A body over the limit is never accepted by `decodeJSONBody`. -/
theorem decodeJSONBody_long_not_ok {α : Type} (r : Request)
    (u : Bool → Bytes → Except GoError α) (dst : α)
    (hlen : 1048576 < r.body.data.length) : decodeJSONBody r u ≠ Except.ok dst := by
  intro hok
  by_cases hct : r.contentType ≠ [] ∧
      headerParseValueAndParams r.contentType ≠ ascii "application/json"
  · unfold decodeJSONBody at hok
    rw [if_pos hct] at hok
    exact Except.noConfusion hok
  · have hpass : r.contentType = [] ∨
        headerParseValueAndParams r.contentType = ascii "application/json" := by
      by_cases h : r.contentType = []
      · exact Or.inl h
      · right
        by_contra h2
        exact hct ⟨h, h2⟩
    have heq := decodeJSONBody_eq r u hpass
    generalize hres :
      (jsonNewDecoder (httpMaxBytesReader r.body 1048576)).DisallowUnknownFields.Decode u = res
      at heq
    obtain ⟨r1, d1⟩ := res
    cases r1 with
    | error e =>
      rw [heq] at hok
      exact Except.noConfusion hok
    | ok v =>
      have := decodeJSONBody_second_of_long r u v d1 hpass hlen hres
      rw [this] at hok
      exact Except.noConfusion hok

/-- C6 (amended): `logSinglePost` decodes the body itself: it answers 200 and starts
`logOne` on a record exactly when the Content-Type header is exactly `application/json`
or `text/plain` and the first value of the body decodes into that record; otherwise it
answers 400 and starts nothing.  What `decodeJSONBody` accepts under the header
`application/json` it accepts too, with the same record.  A body with a number beyond
the `float64` range does not decode and is answered 400, and so is any header with
parameters. -/
theorem logSinglePost_permissive (r : Request) :
    (∀ fields, logSinglePost r = (HandlerResult.string 200 "ok\n", [Goroutine.logOne fields]) ↔
      ((r.contentType = ascii "application/json" ∨ r.contentType = ascii "text/plain") ∧
        ((jsonNewDecoder r.body).Decode unmarshalMap).1 = Except.ok fields)) ∧
    ((∃ fields, logSinglePost r = (HandlerResult.string 200 "ok\n", [Goroutine.logOne fields])) ∨
      ((logSinglePost r).1.status = 400 ∧ (logSinglePost r).2 = [])) ∧
    (∀ fields, r.contentType = ascii "application/json" →
      decodeJSONBody r unmarshalMap = Except.ok fields →
      logSinglePost r = (HandlerResult.string 200 "ok\n", [Goroutine.logOne fields])) ∧
    logSinglePost (postRequest "application/json" hugeNumberObject)
      = (HandlerResult.httpError 400 "Unable to parse body as JSON", []) ∧
    logSinglePost (postRequest "application/json; charset=utf-8" valueA1)
      = (HandlerResult.httpError 400 "content must be json", []) := by
  have hiff : ∀ fields,
      logSinglePost r = (HandlerResult.string 200 "ok\n", [Goroutine.logOne fields]) ↔
      ((r.contentType = ascii "application/json" ∨ r.contentType = ascii "text/plain") ∧
        ((jsonNewDecoder r.body).Decode unmarshalMap).1 = Except.ok fields) := by
    intro fields
    unfold logSinglePost
    by_cases hct : r.contentType = ascii "application/json" ∨ r.contentType = ascii "text/plain"
    · rw [if_pos hct]
      generalize ((jsonNewDecoder r.body).Decode unmarshalMap).1 = res
      cases res with
      | error e => simp
      | ok v => simp [logSingle, hct, StatusOK]
    · rw [if_neg hct]
      simp [hct]
  refine ⟨hiff, ?_, ?_, by rfl, by rfl⟩
  · unfold logSinglePost
    by_cases hct : r.contentType = ascii "application/json" ∨ r.contentType = ascii "text/plain"
    · rw [if_pos hct]
      generalize ((jsonNewDecoder r.body).Decode unmarshalMap).1 = res
      cases res with
      | error e => exact Or.inr ⟨rfl, rfl⟩
      | ok v => exact Or.inl ⟨v, rfl⟩
    · rw [if_neg hct]
      exact Or.inr ⟨rfl, rfl⟩
  · intro fields hct hok
    refine (hiff fields).2 ⟨Or.inl hct, ?_⟩
    have hlen : r.body.data.length ≤ 1048576 := by
      by_contra h
      exact decodeJSONBody_long_not_ok r unmarshalMap fields (Nat.lt_of_not_le h) hok
    have hpass : r.contentType = [] ∨
        headerParseValueAndParams r.contentType = ascii "application/json" := by
      right; rw [hct]; decide
    rw [decodeJSONBody_eq r unmarshalMap hpass, httpMaxBytesReader_short _ _ hlen] at hok
    rw [← Decoder.Decode_flag (jsonNewDecoder r.body) unmarshalMap (fun _ _ _ => rfl)]
    generalize (jsonNewDecoder r.body).DisallowUnknownFields.Decode unmarshalMap = res at hok
    obtain ⟨r1, d1⟩ := res
    cases r1 with
    | error e => exact Except.noConfusion hok
    | ok v =>
      simp only at hok
      split at hok
      · cases hok
        rfl
      · exact Except.noConfusion hok

/-- C6 fails as stated: `logSinglePost` answers the body `{"a":1}{"b":2}` with 200 and
starts `logOne` on the record of its first value, while `decodeJSONBody` rejects the
same request with 400 `TrailingData`. -/
theorem logSinglePost_permissive_counterexample :
    logSinglePost (postRequest "application/json" twoValues)
      = (HandlerResult.string 200 "ok\n", [Goroutine.logOne recordA1]) ∧
    decodeJSONBody (postRequest "application/json" twoValues) unmarshalMap
      = Except.error TrailingData :=
  ⟨by rfl, by rfl⟩

/-! ## Go maps -/

theorem mapGet_mapSet {β : Type} (m : List (Bytes × β)) (k k' : Bytes) (v : β) :
    mapGet (mapSet m k v) k' = if k = k' then some v else mapGet m k' := by
  induction m with
  | nil => simp [mapSet, mapGet]
  | cons e rest ih =>
    obtain ⟨k0, v0⟩ := e
    by_cases h0 : k0 = k
    · subst h0
      by_cases h1 : k0 = k' <;> simp [mapSet, mapGet, h1]
    · by_cases h1 : k0 = k'
      · subst h1
        simp [mapSet, mapGet, h0, Ne.symm h0]
      · simp [mapSet, mapGet, h0, h1, ih]

theorem mem_mapKeys_iff {β : Type} (m : List (Bytes × β)) (k : Bytes) :
    k ∈ mapKeys m ↔ (mapGet m k).isSome = true := by
  induction m with
  | nil => simp [mapKeys, mapGet]
  | cons e rest ih =>
    obtain ⟨k0, v0⟩ := e
    by_cases h0 : k0 = k
    · simp [mapKeys, mapGet, h0]
    · have ih' : k ∈ List.map Prod.fst rest ↔ (mapGet rest k).isSome = true := ih
      simp [mapKeys, mapGet, h0, Ne.symm h0, ih']

theorem mapKeys_mapSet {β : Type} (m : List (Bytes × β)) (k : Bytes) (v : β) :
    mapKeys (mapSet m k v) = if k ∈ mapKeys m then mapKeys m else mapKeys m ++ [k] := by
  induction m with
  | nil => simp [mapSet, mapKeys]
  | cons e rest ih =>
    obtain ⟨k0, v0⟩ := e
    have ih' : List.map Prod.fst (mapSet rest k v)
        = if k ∈ List.map Prod.fst rest then List.map Prod.fst rest
          else List.map Prod.fst rest ++ [k] := ih
    by_cases h0 : k0 = k
    · simp [mapSet, mapKeys, h0]
    · by_cases h1 : k ∈ List.map Prod.fst rest
      · simp [mapSet, mapKeys, h0, Ne.symm h0, ih', h1]
      · simp [mapSet, mapKeys, h0, Ne.symm h0, ih', h1]

theorem nodup_mapKeys_mapSet {β : Type} (m : List (Bytes × β)) (k : Bytes) (v : β)
    (h : (mapKeys m).Nodup) : (mapKeys (mapSet m k v)).Nodup := by
  rw [mapKeys_mapSet]
  split_ifs with hk
  · exact h
  · exact List.Nodup.append h (List.nodup_singleton k) (by simpa using hk)

/-- The map a loop of assignments `fields[k] = f(k)` builds. -/
theorem mapGet_foldl_mapSet {β : Type} (f : Bytes → β) (ks : List Bytes)
    (m : List (Bytes × β)) (k : Bytes) :
    mapGet (ks.foldl (fun fields k => mapSet fields k (f k)) m) k
      = if k ∈ ks then some (f k) else mapGet m k := by
  induction ks generalizing m with
  | nil => simp
  | cons a as ih =>
    rw [List.foldl_cons, ih, mapGet_mapSet]
    by_cases h1 : k ∈ as
    · simp [h1]
    · by_cases h2 : a = k
      · simp [h2]
      · simp [h1, h2, Ne.symm h2]

theorem nodup_foldl_mapSet {β : Type} (f : Bytes → β) (ks : List Bytes)
    (m : List (Bytes × β)) (h : (mapKeys m).Nodup) :
    (mapKeys (ks.foldl (fun fields k => mapSet fields k (f k)) m)).Nodup := by
  induction ks generalizing m with
  | nil => exact h
  | cons a as ih =>
    rw [List.foldl_cons]
    exact ih _ (nodup_mapKeys_mapSet m a (f a) h)

/-! ## The query -/

theorem mapGet_valuesAppend (m : Values) (p : Bytes × Bytes) (k : Bytes) :
    mapGet (valuesAppend m p) k
      = if p.1 = k then some ((mapGet m k).getD [] ++ [p.2]) else mapGet m k := by
  unfold valuesAppend
  rw [mapGet_mapSet]
  by_cases h : p.1 = k
  · simp [h]
  · simp [h]

/-- What `url.ParseQuery` collects under a key: the values of its parameters, in order. -/
theorem mapGet_foldl_valuesAppend (ps : List (Bytes × Bytes)) (m : Values) (k : Bytes) :
    mapGet (ps.foldl valuesAppend m) k
      = if (mapGet m k).isSome = true ∨ k ∈ ps.map Prod.fst then
          some ((mapGet m k).getD [] ++ (ps.filter (fun p => decide (p.1 = k))).map Prod.snd)
        else none := by
  induction ps generalizing m with
  | nil =>
    cases h : mapGet m k <;> simp [h]
  | cons p ps ih =>
    rw [List.foldl_cons, ih, mapGet_valuesAppend]
    by_cases hp : p.1 = k
    · simp [hp]
    · have hp' : ¬ k = p.1 := fun h => hp h.symm
      have hmem : (k ∈ (p :: ps).map Prod.fst) ↔ k ∈ ps.map Prod.fst := by simp [hp']
      have hfil : (p :: ps).filter (fun p => decide (p.1 = k))
          = ps.filter (fun p => decide (p.1 = k)) := by simp [List.filter, hp]
      rw [if_neg hp, hfil]
      simp only [hmem]

theorem nodup_foldl_valuesAppend (ps : List (Bytes × Bytes)) (m : Values)
    (h : (mapKeys m).Nodup) : (mapKeys (ps.foldl valuesAppend m)).Nodup := by
  induction ps generalizing m with
  | nil => exact h
  | cons p ps ih =>
    rw [List.foldl_cons]
    exact ih _ (nodup_mapKeys_mapSet m p.1 _ h)

theorem head_filter_eq_find (ps : List (Bytes × Bytes)) (k : Bytes) :
    (match (ps.filter (fun p => decide (p.1 = k))).map Prod.snd with
      | [] => none
      | first :: _ => some first)
      = (ps.find? (fun p => decide (p.1 = k))).map Prod.snd := by
  induction ps with
  | nil => rfl
  | cons p ps ih =>
    by_cases hp : p.1 = k
    · simp [List.filter, List.find?, hp]
    · simpa [List.filter, List.find?, hp] using ih

theorem mem_keys_urlQuery (q k : Bytes) :
    k ∈ mapKeys (urlQuery q) ↔ k ∈ (queryParams q).map Prod.fst := by
  rw [mem_mapKeys_iff, urlQuery, mapGet_foldl_valuesAppend]
  by_cases h : k ∈ (queryParams q).map Prod.fst
  · simp [h, mapGet]
  · simp [h, mapGet]

theorem valuesGet_urlQuery (q k : Bytes) (h : k ∈ (queryParams q).map Prod.fst) :
    some ((urlQuery q).Get k)
      = ((queryParams q).find? (fun p => decide (p.1 = k))).map Prod.snd := by
  rw [← head_filter_eq_find]
  unfold Values.Get
  rw [urlQuery, mapGet_foldl_valuesAppend]
  have hne : (queryParams q).filter (fun p => decide (p.1 = k)) ≠ [] := by
    obtain ⟨p, hp, hk⟩ := List.mem_map.1 h
    intro hnil
    have : p ∈ (queryParams q).filter (fun p => decide (p.1 = k)) :=
      List.mem_filter.2 ⟨hp, by simpa using hk⟩
    rw [hnil] at this
    exact List.not_mem_nil _ this
  simp only [mapGet, Option.isSome_none, Bool.false_eq_true, false_or, h, if_true,
    Option.getD_some, Option.getD_none, List.nil_append]
  cases hf : (queryParams q).filter (fun p => decide (p.1 = k)) with
  | nil => exact absurd hf hne
  | cons a as => rfl

/-- C4 (amended): the record `logSinglePut` hands to `logOne` has exactly one field for
each distinct name among the query parameters, and the field of a name holds, as a
string, the value of the first parameter with that name. -/
theorem logSinglePut_first_wins (r : Request) :
    ∃ fields : Record,
      logSinglePut r = (HandlerResult.string 200 "ok", [Goroutine.logOne fields]) ∧
      (mapKeys fields).Nodup ∧
      (∀ k, k ∈ mapKeys fields ↔ k ∈ (queryParams r.rawQuery).map Prod.fst) ∧
      (∀ k, mapGet fields k
        = ((queryParams r.rawQuery).find? (fun p => decide (p.1 = k))).map
            (fun p => Value.string p.2)) := by
  refine ⟨_, rfl, nodup_foldl_mapSet _ _ _ (by simp [mapKeys]), ?_, ?_⟩
  · intro k
    rw [mem_mapKeys_iff, mapGet_foldl_mapSet, ← mem_keys_urlQuery]
    by_cases h : k ∈ mapKeys (urlQuery r.rawQuery)
    · simp [h]
    · simp [h, mapGet]
  · intro k
    rw [mapGet_foldl_mapSet]
    by_cases h : k ∈ mapKeys (urlQuery r.rawQuery)
    · have h' := (mem_keys_urlQuery _ _).1 h
      have hv := valuesGet_urlQuery r.rawQuery k h'
      rw [if_pos h]
      cases hf : (queryParams r.rawQuery).find? (fun p => decide (p.1 = k)) with
      | none => rw [hf] at hv; simp at hv
      | some p =>
        rw [hf] at hv
        simp only [Option.map_some', Option.some.injEq] at hv ⊢
        rw [hv]
    · rw [if_neg h]
      have h' : k ∉ (queryParams r.rawQuery).map Prod.fst :=
        fun hk => h ((mem_keys_urlQuery _ _).2 hk)
      have : (queryParams r.rawQuery).find? (fun p => decide (p.1 = k)) = none := by
        rw [List.find?_eq_none]
        intro p hp hk
        exact h' (List.mem_map.2 ⟨p, hp, by simpa using hk⟩)
      rw [this]
      rfl

/-- C4 fails as stated: for the query `a=1&a=2` the record built is `a = "1"`, the value
of the first occurrence, not of the last. -/
theorem logSinglePut_last_wins_counterexample :
    queryParams repeatedQuery.rawQuery = [(ascii "a", ascii "1"), (ascii "a", ascii "2")] ∧
    logSinglePut repeatedQuery
      = (HandlerResult.string 200 "ok",
          [Goroutine.logOne [(ascii "a", Value.string (ascii "1"))]]) :=
  ⟨by decide, by rfl⟩

/-! ## The range of `float64` -/

/-- The bound is `2 ^ 1024 - 2 ^ 970`. -/
theorem float64Bound_eq : float64Bound = 2 ^ 1024 - 2 ^ 970 := by
  norm_num [float64Bound]

/-- The largest `float64` and the literals around the bound: `1e308` and the decimal
expansion of the largest `float64` are in range, `1e400` and the next decimal after the
bound are not, and a literal too small for `float64` is no error. -/
theorem parseFloatRangeError_examples :
    parseFloatRangeError (ascii "1e308") = false ∧
    parseFloatRangeError (ascii "1.7976931348623157e308") = false ∧
    parseFloatRangeError (ascii "1.7976931348623159e308") = true ∧
    parseFloatRangeError (ascii "1e400") = true ∧
    parseFloatRangeError (ascii "-1E+400") = true ∧
    parseFloatRangeError (ascii "0e400") = false ∧
    parseFloatRangeError (ascii "1e-400") = false := by
  decide

/-- A number beyond the `float64` range is an `UnmarshalTypeError` where it is decoded
into an `interface{}` and is not looked at where the value is skipped. -/
theorem unmarshal_rangeError_examples :
    unmarshalMap false hugeNumberObject = Except.error (GoError.unmarshalTypeError [] 11) ∧
    unmarshalMapSlice false hugeNumberArray = Except.error (GoError.unmarshalTypeError [] 12) ∧
    unmarshalEmptyStruct false hugeNumberObject = Except.ok () ∧
    unmarshalEmptyStruct true hugeNumberObject = Except.error (GoError.unknownField (ascii "a")) :=
  ⟨by rfl, by rfl, by rfl, by rfl⟩

end Logjam
